import Mathlib

/-!
Verification of the resynth texture-synthesis core (src/resynth_c/engine.h,
src/resynth_c/resynth.c) against its natural-language specification.

The C code is shallowly embedded: pixel buffers (uint8 arrays) become
`List Nat`, the per-corpus-pixel tried grid becomes `List Int`, C `int`
arithmetic becomes `Int` arithmetic (no overflow is modelled; the spec
documents overflow as a fatal error outside the verified envelope), and the
process-wide PRNG state is threaded explicitly.  `double` values (the
`autism` parameter) are modelled as exact rationals, and the transcendental
difference-table computation is modelled over the reals.
-/

set_option maxHeartbeats 1000000
set_option maxRecDepth 10000
set_option linter.unusedVariables false

/-- Modelled from the spec: the PRNG implementation (rnd.h) is not under
src/.  Per spec section 4.1 it is a fixed deterministic small-state 32-bit
generator exposing a seed operation and a bounded range(lo, hi) primitive
returning integers in the interval from lo to hi inclusive.  We model a
fixed 64-bit linear-congruential step with a 32-bit output; the spec's
"unbiased rejection" is modelled by a simple modulus (the claims under
verification depend only on determinism and on the output landing in the
requested interval, not on the distribution). -/
structure Pcg where
  state : Nat
deriving DecidableEq, Repr

/-- Modelled from the spec: seeding the PRNG (rnd_pcg_seed). -/
def pcgSeed (seed : Int) : Pcg :=
  ⟨(seed % 18446744073709551616).toNat⟩

/-- Modelled from the spec: one raw 32-bit output of the generator. -/
def pcgNext (g : Pcg) : Nat × Pcg :=
  let s := (g.state * 6364136223846793005 + 1442695040888963407) % 18446744073709551616
  ((s / 4294967296) % 4294967296, ⟨s⟩)

/-- Modelled from the spec: range(lo, hi) returning an integer in
[lo, hi] inclusive (rnd_pcg_range).  For an empty interval (hi < lo) the
model returns lo. -/
def pcgRange (g : Pcg) (lo hi : Int) : Int × Pcg :=
  if lo ≤ hi then
    let vg := pcgNext g
    (lo + (vg.1 : Int) % (hi - lo + 1), vg.2)
  else (lo, g)

/-- struct _Parameters (engine.h).  The C double autism is modelled as an
exact rational. -/
structure Parameters where
  h_tile : Bool
  v_tile : Bool
  autism : ℚ
  neighbors : Int
  tries : Int
  magic : Int
  random_seed : Int
deriving DecidableEq

/-- typedef struct coord (engine.h). -/
structure Coord where
  x : Int
  y : Int
deriving DecidableEq, Repr

/-- coord_add (engine.h). -/
def coord_add (a b : Coord) : Coord := ⟨a.x + b.x, a.y + b.y⟩

/-- coord_sub (engine.h). -/
def coord_sub (a b : Coord) : Coord := ⟨a.x - b.x, a.y - b.y⟩

/-- Status of one output pixel (engine.h). -/
structure Status where
  has_value : Bool
  has_source : Bool
  source : Coord
deriving DecidableEq, Repr

/-- The all-false, zero-coordinate status cell produced by calloc. -/
def statusZero : Status := ⟨false, false, ⟨0, 0⟩⟩

/-- Image header: width, height, depth (engine.h). -/
structure Image where
  width : Int
  height : Int
  depth : Int
deriving DecidableEq, Repr

/-- One collected neighbor: the C code stores the offset in s->neighbors,
a pointer to the status cell of the wrapped point in s->neighbor_statuses
(modelled by storing the wrapped point itself; the status grid does not
change between collection and its uses within one iteration), and a copy of
the output pixel in s->neighbor_values. -/
structure Neighbor where
  offset : Coord
  spoint : Coord
  value : List Nat
deriving DecidableEq, Repr

/-- struct _Resynth_state (engine.h).  Flat C arrays become lists; the
collected-neighbor scratch arrays become one list of records whose length
is n_neighbors. -/
structure Resynth_state where
  input_bytes : Int
  data : Image
  corpus : Image
  status : Image
  data_array : List Nat
  corpus_array : List Nat
  status_array : List Status
  data_points : List Coord
  corpus_points : List Coord
  sorted_offsets : List Coord
  tried : Image
  tried_array : List Int
  neighbors : List Neighbor
  n_neighbors : Int
  diff_table : List Int
  best : Int
  best_point : Coord
deriving DecidableEq

/-- INT_MAX for 32-bit int, the initial best cost of each iteration. -/
def INT_MAX : Int := 2147483647

/-- The flat index computed by the image_at macro:
(y * width + x) * depth. -/
def imageIdx (img : Image) (c : Coord) : Int :=
  (c.y * img.width + c.x) * img.depth

/-- Read channel k of the pixel at c (image_atc on a pixel buffer). -/
def pixGet (arr : List Nat) (img : Image) (c : Coord) (k : Nat) : Nat :=
  arr.getD ((imageIdx img c).toNat + k) 0

/-- Read the status cell at c (image_atc on the status grid, depth 1). -/
def cellGet (arr : List Status) (img : Image) (c : Coord) : Status :=
  arr.getD (imageIdx img c).toNat statusZero

/-- Read the tried grid at c (image_atc on the tried grid, depth 1). -/
def triedGet (arr : List Int) (img : Image) (c : Coord) : Int :=
  arr.getD (imageIdx img c).toNat 0

/-- Status cell of the current state at an output coordinate. -/
def statusAt (s : Resynth_state) (c : Coord) : Status :=
  cellGet s.status_array s.status c

/-- Update the status cell at an output coordinate. -/
def setStatusAt (s : Resynth_state) (c : Coord) (f : Status → Status) : Resynth_state :=
  { s with status_array :=
      s.status_array.set (imageIdx s.status c).toNat (f (statusAt s c)) }

/-- Update the tried grid at a corpus coordinate. -/
def setTried (s : Resynth_state) (c : Coord) (v : Int) : Resynth_state :=
  { s with tried_array := s.tried_array.set (imageIdx s.tried c).toNat v }

/-- wrap_or_clip for a single axis (engine.h): in-range values pass
through; with tiling enabled the C while loops repeatedly add or subtract
the axis length, which for a positive length is exactly the Euclidean
modulus; otherwise the point is rejected. -/
def wrapAxisOk (tile : Bool) (len v : Int) : Option Int :=
  if 0 ≤ v ∧ v < len then some v
  else if tile then some (v % len) else none

/-- wrap_or_clip (engine.h); the x axis is adjusted first, then y, and the
axes are independent. -/
def wrap_or_clip (p : Parameters) (img : Image) (c : Coord) : Option Coord :=
  match wrapAxisOk p.h_tile img.width c.x, wrapAxisOk p.v_tile img.height c.y with
  | some x, some y => some ⟨x, y⟩
  | _, _ => none

/-- The row-major coordinate list pushed by the x/y loops of
resynth__init for data_points and corpus_points. -/
def rowMajor (w h : Int) : List Coord :=
  ((List.range h.toNat).map (fun (y : Nat) =>
    (List.range w.toNat).map (fun (x : Nat) => (⟨(x : Int), (y : Int)⟩ : Coord)))).flatten

/-- The squared distance key by which coord_compare orders offsets. -/
def coordKey (c : Coord) : Int := c.x * c.x + c.y * c.y

/-- make_offset_list (engine.h): all offsets with absolute value below the
minimum of the corpus and data extents on each axis, sorted by squared
distance from the origin.  qsort leaves the order of equal keys
unspecified; the model fixes a deterministic stable insertion sort, which
the spec permits ("ties may be broken arbitrarily but deterministically"). -/
def make_offset_list (s : Resynth_state) : List Coord :=
  let width := min s.corpus.width s.data.width
  let height := min s.corpus.height s.data.height
  let raw :=
    ((List.range (2 * height - 1).toNat).map (fun (j : Nat) =>
      (List.range (2 * width - 1).toNat).map (fun (i : Nat) =>
        (⟨(i : Int) - width + 1, (j : Int) - height + 1⟩ : Coord)))).flatten
  raw.insertionSort (fun a b => coordKey a ≤ coordKey b)

/-- neglog_cauchy (engine.h): log(x^2 + 1). -/
noncomputable def neglog_cauchy (x : ℝ) : ℝ := Real.log (x * x + 1)

/-- One entry of the difference table as written by resynth__init for
delta i in [-256, 255] (stored at index 256 + i).  For autism > 0 the C
double computation is modelled over the reals; the (int) cast of the
non-negative value is a floor.  For autism = 0 only delta 0 costs zero. -/
noncomputable def diffTableVal (autism : ℚ) (i : Int) : Int :=
  if 0 < autism then
    Int.floor (neglog_cauchy ((i : ℝ) / 256 / (autism : ℝ)) /
      neglog_cauchy (1 / (autism : ℝ)) * 65536)
  else if i ≠ 0 then 65536 else 0

/-- The 512-entry difference table of resynth__init. -/
noncomputable def mkDiffTable (autism : ℚ) : List Int :=
  (List.range 512).map (fun (idx : Nat) => diffTableVal autism ((idx : Int) - 256))

/-- The per-neighbor cost contribution inside try_point (engine.h): an
out-of-corpus offset point adds diff_table[0] times the channel count; an
in-corpus point of a neighbor with positive index adds the per-channel
table costs; the neighbor at index 0 contributes zero. -/
def neighborDiff (s : Resynth_state) (point : Coord) (i : Nat) (nb : Neighbor) : Int :=
  let off_point := coord_add point nb.offset
  if off_point.x < 0 ∨ off_point.y < 0 ∨
      s.corpus.width ≤ off_point.x ∨ s.corpus.height ≤ off_point.y then
    s.diff_table.getD 0 0 * s.input_bytes
  else if i ≠ 0 then
    (List.range s.input_bytes.toNat).foldl (fun acc j =>
      acc + s.diff_table.getD
        (256 + (nb.value.getD j 0 : Int) -
          (pixGet s.corpus_array s.corpus off_point j : Int)).toNat 0) 0
  else 0

/-- The accumulation loop of try_point with its early exit: returns none
when the running sum reaches the current best (the C early return without
updating), otherwise the final sum. -/
def tryPointGo (s : Resynth_state) (point : Coord) :
    List Neighbor → Nat → Int → Option Int
  | [], _, sum => some sum
  | nb :: rest, i, sum =>
    let sum2 := sum + neighborDiff s point i nb
    if s.best ≤ sum2 then none
    else tryPointGo s point rest (i + 1) sum2

/-- try_point (engine.h). -/
def try_point (s : Resynth_state) (point : Coord) : Resynth_state :=
  match tryPointGo s point s.neighbors 0 0 with
  | none => s
  | some sum => { s with best := sum, best_point := point }

/-- The neighbor-collection loop of resynth (engine.h): walk the sorted
offsets, keep points that wrap or clip into the output and already have a
value, and break once the entry just recorded brings the count up to the
neighbors parameter.  The count argument n is the value of s->n_neighbors
before the current entry is recorded. -/
def collectGo (p : Parameters) (s : Resynth_state) (position : Coord) :
    List Coord → Int → List Neighbor
  | [], _ => []
  | o :: rest, n =>
    match wrap_or_clip p s.data (coord_add position o) with
    | some pt =>
      if (statusAt s pt).has_value then
        let nb : Neighbor :=
          ⟨o, pt, (List.range s.input_bytes.toNat).map
            (fun k => pixGet s.data_array s.data pt k)⟩
        if p.neighbors ≤ n + 1 then [nb]
        else nb :: collectGo p s position rest (n + 1)
      else collectGo p s position rest n
    | none => collectGo p s position rest n

/-- Step 2 of one iteration: store the collected neighbors. -/
def collectPhase (p : Parameters) (s : Resynth_state) (position : Coord) : Resynth_state :=
  let ns := collectGo p s position s.sorted_offsets 0
  { s with neighbors := ns, n_neighbors := (ns.length : Int) }

/-- The coherence-candidate loop of resynth (engine.h), iterating over the
collected neighbors while best is nonzero: a neighbor with a recorded
source proposes source minus offset; out-of-corpus candidates are skipped,
candidates already tried this iteration are skipped, and a scored candidate
is marked in the tried grid with the current iteration index. -/
def coherenceGo (i : Int) : List Neighbor → Resynth_state → Resynth_state
  | [], s => s
  | nb :: rest, s =>
    if s.best = 0 then s
    else
      let st := statusAt s nb.spoint
      if st.has_source then
        let point := coord_sub st.source nb.offset
        if point.x < 0 ∨ point.y < 0 ∨
            s.corpus.width ≤ point.x ∨ s.corpus.height ≤ point.y then
          coherenceGo i rest s
        else if triedGet s.tried_array s.tried point = i then
          coherenceGo i rest s
        else coherenceGo i rest (setTried (try_point s point) point i)
      else coherenceGo i rest s

/-- The random-probe loop of resynth (engine.h): up to tries probes while
best is nonzero, each drawing a corpus point index from the PRNG.  Random
probes neither consult nor update the tried grid. -/
def triesGo : Nat → Resynth_state × Pcg → Resynth_state × Pcg
  | 0, sg => sg
  | k + 1, sg =>
    if sg.1.best = 0 then sg
    else
      let rg := pcgRange sg.2 0 ((sg.1.corpus_points.length : Int) - 1)
      triesGo k (try_point sg.1 (sg.1.corpus_points.getD rg.1.toNat ⟨0, 0⟩), rg.2)

/-- Step 3 of one iteration: reset best to INT_MAX, run the coherence
candidates, then the random probes. -/
def scorePhase (p : Parameters) (i : Int) (sg : Resynth_state × Pcg) :
    Resynth_state × Pcg :=
  let s := { sg.1 with best := INT_MAX }
  let s2 := coherenceGo i s.neighbors s
  triesGo p.tries.toNat (s2, sg.2)

/-- Step 4 of one iteration: copy every channel of corpus[best_point] to
data[position], then record the source. -/
def commitPhase (s : Resynth_state) (position : Coord) : Resynth_state :=
  let base := (imageIdx s.data position).toNat
  let arr2 := (List.range s.input_bytes.toNat).foldl
    (fun a j => a.set (base + j) (pixGet s.corpus_array s.corpus s.best_point j)) s.data_array
  setStatusAt { s with data_array := arr2 } position
    (fun st => { st with has_source := true, source := s.best_point })

/-- One iteration of the synthesis loop before its commit: mark the
position as having a value, collect neighbors, and score candidates. -/
def stepPre (p : Parameters) (i : Nat) (sg : Resynth_state × Pcg) :
    Resynth_state × Pcg :=
  let s := sg.1
  let position := s.data_points.getD i ⟨0, 0⟩
  let s := setStatusAt s position (fun st => { st with has_value := true })
  let s := collectPhase p s position
  scorePhase p (i : Int) (s, sg.2)

/-- One full iteration of the synthesis loop at loop index i. -/
def synthStep (p : Parameters) (i : Nat) (sg : Resynth_state × Pcg) :
    Resynth_state × Pcg :=
  let sg2 := stepPre p i sg
  (commitPhase sg2.1 (sg2.1.data_points.getD i ⟨0, 0⟩), sg2.2)

/-- The synthesis loop over an explicit list of loop indices; the C loop
iterates the indices from data_points count minus one down to zero. -/
def runIdx (p : Parameters) : List Nat → Resynth_state × Pcg → Resynth_state × Pcg
  | [], sg => sg
  | i :: rest, sg => runIdx p rest (synthStep p i sg)

/-- The in-place Fisher-Yates-style shuffle of resynth__init: for each
index i in order, draw j in [0, area-1] and swap entries i and j.  The C
swap through a temporary is modelled on lists by a double set. -/
def listSwap (l : List Coord) (i j : Nat) : List Coord :=
  match l[i]?, l[j]? with
  | some a, some b => (l.set i b).set j a
  | _, _ => l

/-- The shuffle loop of resynth__init; the fuel starts at the point count
and the index at zero. -/
def shuffleGo (area : Int) : Nat → Nat → List Coord × Pcg → List Coord × Pcg
  | 0, _, lg => lg
  | k + 1, i, lg =>
    let rg := pcgRange lg.2 0 (area - 1)
    shuffleGo area k (i + 1) (listSwap lg.1 i rg.1.toNat, rg.2)

/-- The polishing loop of resynth__init: on entry with a positive n,
shrink n to n times magic over 256 (C int division truncates toward zero, Int.tdiv)
and append the first n entries of the current array; repeat while n stays
positive.  The guard n2 < n always holds in the C domain magic in [0, 255]
(for magic at least 256 the C loop would not terminate; the model stops
after one append in that unreachable case). -/
def polishLoop (magic : Int) (pts : List Coord) (n : Int) : List Coord :=
  let n2 := Int.tdiv (n * magic) 256
  let pts2 := pts ++ pts.take n2.toNat
  if h9 : 0 < n2 ∧ n2 < n then polishLoop magic pts2 n2
  else pts2
termination_by n.toNat
decreasing_by
  omega

/-- resynth__init (engine.h).  The C status loop writes the calloc values
back (all-false cells) while pushing the row-major data_points; the model
uses List.replicate for the freshly allocated grid and rowMajor for the
pushed coordinate list, which is the same result. -/
noncomputable def resynth__init (p : Parameters) (sg : Resynth_state × Pcg) :
    Resynth_state × Pcg :=
  let s := sg.1
  let g := sg.2
  let s := { s with
    data_points := rowMajor s.data.width s.data.height,
    corpus_points := rowMajor s.corpus.width s.corpus.height,
    sorted_offsets := [],
    diff_table := List.replicate 512 0,
    neighbors := [], n_neighbors := 0,
    status := (⟨s.data.width, s.data.height, 1⟩ : Image),
    status_array := List.replicate (s.data.width * s.data.height).toNat statusZero }
  if s.corpus_points.length = 0 ∨ s.data_points.length = 0 then (s, g)
  else
    let s := { s with sorted_offsets := make_offset_list s }
    let s := { s with diff_table := mkDiffTable p.autism }
    let data_area : Int := (s.data_points.length : Int)
    let sh := shuffleGo data_area data_area.toNat 0 (s.data_points, g)
    let pts := if p.magic ≠ 0 then polishLoop p.magic sh.1 data_area else sh.1
    let s := { s with
      data_points := pts,
      tried := (⟨s.corpus.width, s.corpus.height, 1⟩ : Image),
      tried_array := List.replicate (s.corpus.width * s.corpus.height).toNat (-1) }
    (s, sh.2)

/-- resynth (engine.h): initialize, then iterate the visitation array from
the last index down to index zero. -/
noncomputable def resynth (p : Parameters) (sg : Resynth_state × Pcg) :
    Resynth_state × Pcg :=
  let sg1 := resynth__init p sg
  runIdx p (List.range sg1.1.data_points.length).reverse sg1

/-- resynth_state_create_from_memory (resynth.c): a calloc-zeroed state
holding a copy of the corpus pixels and a zero-initialized output buffer
whose dimensions are derived from the scale argument.  The debug asserts
(width, height positive, channels at least 3) become theorem hypotheses
where needed. -/
def resynth_state_create_from_memory (pixels : List Nat)
    (width height channels scale : Int) : Resynth_state :=
  let dw : Int := if 0 < scale then scale * width else if scale < 0 then -scale else 256
  let dh : Int := if 0 < scale then scale * height else if scale < 0 then -scale else 256
  { input_bytes := channels
    data := ⟨dw, dh, channels⟩
    corpus := ⟨width, height, channels⟩
    status := ⟨0, 0, 0⟩
    data_array := List.replicate (dw * dh * channels).toNat 0
    corpus_array := (List.range (width * height * channels).toNat).map
      (fun i => pixels.getD i 0)
    status_array := []
    data_points := []
    corpus_points := []
    sorted_offsets := []
    tried := ⟨0, 0, 0⟩
    tried_array := []
    neighbors := []
    n_neighbors := 0
    diff_table := []
    best := 0
    best_point := ⟨0, 0⟩ }

/-- struct _Resynth_result (engine.h); the float view is not modelled. -/
structure Resynth_result where
  pixels : List Nat
  width : Int
  height : Int
  channels : Int
  valid : Bool

/-- resynth_run (resynth.c): seed the process PRNG, run resynth, and build
a result that borrows the output buffer and always reports valid. -/
noncomputable def resynth_run (s : Resynth_state) (p : Parameters) :
    Resynth_result × Resynth_state × Pcg :=
  let g := pcgSeed p.random_seed
  let sg := resynth p (s, g)
  (⟨sg.1.data_array, sg.1.data.width, sg.1.data.height, sg.1.data.depth, true⟩,
    sg.1, sg.2)

/-- The C CLAMP macro: MIN(MAX(x, l), u). -/
def cCLAMP (x l u : Int) : Int := min (max x l) u

/-- disc00 (engine.h): the table of disc point counts bounding the
neighbors parameter; 128 entries, the last being 1093. -/
def disc00 : List Int :=
  [1,    5,    9,    13,   21,   25,   29,   37,
   45,   49,   57,   61,   69,   81,   89,   97,
   101,  109,  113,  121,  129,  137,  145,  149,
   161,  169,  177,  185,  193,  197,  213,  221,
   225,  233,  241,  249,  253,  261,  277,  285,
   293,  301,  305,  317,  325,  333,  341,  349,
   357,  365,  373,  377,  385,  401,  405,  421,
   429,  437,  441,  457,  465,  473,  481,  489,
   497,  505,  509,  517,  529,  545,  553,  561,
   569,  577,  593,  601,  609,  613,  621,  633,
   641,  657,  665,  673,  681,  697,  709,  717,
   725,  733,  741,  749,  757,  761,  769,  777,
   793,  797,  805,  821,  829,  845,  853,  861,
   869,  877,  885,  889,  901,  917,  925,  933,
   941,  949,  965,  973,  981,  989,  997,  1005,
   1009, 1033, 1041, 1049, 1057, 1069, 1085, 1093]

/-- resynth_parameters_neighbors (resynth.c): clamp into
[0, disc00[LEN(disc00) - 1]]. -/
def resynth_parameters_neighbors (p : Parameters) (neighbors : Int) : Parameters :=
  { p with neighbors := cCLAMP neighbors 0 (disc00.getD (disc00.length - 1) 0) }

/-- Position predicate: a coordinate lies inside an image (spec section 3,
"positions inside an image"). -/
def inB (img : Image) (c : Coord) : Prop :=
  0 ≤ c.x ∧ c.x < img.width ∧ 0 ≤ c.y ∧ c.y < img.height

/-- The sum of the geometrically decaying polish lengths described by the
spec: n0 = floor(N m / 256), n(i+1) = floor(n(i) m / 256), terminating at
the first non-positive term. -/
def specTailSum (magic n : Int) : Int :=
  let n2 := Int.tdiv (n * magic) 256
  if h9 : 0 < n2 ∧ n2 < n then n2 + specTailSum magic n2
  else 0
termination_by n.toNat
decreasing_by
  omega

/-- The polishing segments as the spec words them: shrink n geometrically
and, while it stays positive, take the first n elements of the current
array as the next appended segment. -/
def specSegs (magic : Int) (pts : List Coord) (n : Int) : List (List Coord) :=
  let n2 := Int.tdiv (n * magic) 256
  if h9 : 0 < n2 ∧ n2 < n then
    pts.take n2.toNat :: specSegs magic (pts ++ pts.take n2.toNat) n2
  else []
termination_by n.toNat
decreasing_by
  omega

/-! ## Difference-table lemmas -/

lemma mkDiffTable_getD (a : ℚ) (k : Nat) (hk : k < 512) :
    (mkDiffTable a).getD k 0 = diffTableVal a ((k : Int) - 256) := by
  unfold mkDiffTable
  rw [List.getD_eq_getElem?_getD, List.getElem?_map, List.getElem?_range hk]
  rfl

lemma mkDiffTable_getD_int (a : ℚ) (z : Int) (h0 : 0 ≤ z) (h1 : z < 512) :
    (mkDiffTable a).getD z.toNat 0 = diffTableVal a (z - 256) := by
  have hz : (z.toNat : Int) = z := Int.toNat_of_nonneg h0
  rw [mkDiffTable_getD a z.toNat (by omega), hz]

lemma neglog_cauchy_even (x : ℝ) : neglog_cauchy (-x) = neglog_cauchy x := by
  unfold neglog_cauchy
  ring_nf

lemma neglog_cauchy_zero : neglog_cauchy 0 = 0 := by
  unfold neglog_cauchy
  norm_num

lemma neglog_cauchy_pos {x : ℝ} (hx : x ≠ 0) : 0 < neglog_cauchy x := by
  unfold neglog_cauchy
  have h : 0 < x * x := mul_self_pos.mpr hx
  exact Real.log_pos (by linarith)

lemma diffTableVal_center (a : ℚ) : diffTableVal a 0 = 0 := by
  unfold diffTableVal
  by_cases ha : 0 < a
  · rw [if_pos ha]
    norm_num [neglog_cauchy_zero]
  · rw [if_neg ha]
    simp

lemma diffTableVal_symm (a : ℚ) (i : Int) : diffTableVal a (-i) = diffTableVal a i := by
  unfold diffTableVal
  by_cases ha : 0 < a
  · rw [if_pos ha, if_pos ha]
    have h : ((-i : Int) : ℝ) / 256 / (a : ℝ) = -(((i : Int) : ℝ) / 256 / (a : ℝ)) := by
      push_cast
      ring
    rw [h, neglog_cauchy_even]
  · rw [if_neg ha, if_neg ha]
    simp [neg_eq_zero]

lemma diffTableVal_edge (a : ℚ) : diffTableVal a (-256) = 65536 := by
  unfold diffTableVal
  by_cases ha : 0 < a
  · rw [if_pos ha]
    have haR : (0 : ℝ) < (a : ℝ) := by exact_mod_cast ha
    have h1 : ((-256 : Int) : ℝ) / 256 / (a : ℝ) = -(1 / (a : ℝ)) := by
      push_cast
      ring
    have hD : 0 < neglog_cauchy (1 / (a : ℝ)) :=
      neglog_cauchy_pos (one_div_ne_zero (ne_of_gt haR))
    rw [h1, neglog_cauchy_even, div_self (ne_of_gt hD), one_mul]
    rw [show (65536 : ℝ) = ((65536 : Int) : ℝ) by norm_num, Int.floor_intCast]
  · rw [if_neg ha]
    norm_num

lemma diffTableVal_mono (a : ℚ) (ha : 0 < a) {i j : Int} (hij : |i| ≤ |j|) :
    diffTableVal a i ≤ diffTableVal a j := by
  unfold diffTableVal
  rw [if_pos ha, if_pos ha]
  apply Int.floor_mono
  have haR : (0 : ℝ) < (a : ℝ) := by exact_mod_cast ha
  have hZ : i * i ≤ j * j := by
    have := mul_self_le_mul_self (abs_nonneg i) hij
    rwa [abs_mul_abs_self, abs_mul_abs_self] at this
  have hR : ((i : ℝ)) * (i : ℝ) ≤ (j : ℝ) * (j : ℝ) := by exact_mod_cast hZ
  have hxy : ((i : ℝ) / 256 / (a : ℝ)) * ((i : ℝ) / 256 / (a : ℝ)) ≤
      ((j : ℝ) / 256 / (a : ℝ)) * ((j : ℝ) / 256 / (a : ℝ)) := by
    rw [div_div, div_div, div_mul_div_comm, div_mul_div_comm]
    exact (div_le_div_iff_of_pos_right (by nlinarith [haR])).mpr hR
  have hnum : neglog_cauchy ((i : ℝ) / 256 / (a : ℝ)) ≤
      neglog_cauchy ((j : ℝ) / 256 / (a : ℝ)) := by
    unfold neglog_cauchy
    exact Real.log_le_log (by nlinarith [mul_self_nonneg ((i : ℝ) / 256 / (a : ℝ))]) (by linarith)
  have hD : 0 < neglog_cauchy (1 / (a : ℝ)) :=
    neglog_cauchy_pos (one_div_ne_zero (ne_of_gt haR))
  exact mul_le_mul_of_nonneg_right
    ((div_le_div_iff_of_pos_right hD).mpr hnum) (by norm_num)

lemma diffTableVal_autism_nonpos (a : ℚ) (ha : ¬ 0 < a) (i : Int) :
    diffTableVal a i = if i = 0 then 0 else 65536 := by
  unfold diffTableVal
  rw [if_neg ha]
  by_cases hi : i = 0 <;> simp [hi]

/-! ## Small structural lemmas -/

lemma runIdx_nil (p : Parameters) (sg : Resynth_state × Pcg) : runIdx p [] sg = sg := rfl

lemma rowMajor_eq_nil {w h : Int} (hw : w ≤ 0 ∨ h ≤ 0) : rowMajor w h = [] := by
  unfold rowMajor
  rcases hw with hw | hh
  · have h0 : w.toNat = 0 := by omega
    rw [h0]
    simp
  · have h0 : h.toNat = 0 := by omega
    rw [h0]
    simp

lemma resynth__init_empty_data (s : Resynth_state) (p : Parameters) (g : Pcg)
    (hd : s.data.width ≤ 0 ∨ s.data.height ≤ 0) :
    resynth__init p (s, g) =
      ({ s with
          data_points := ([] : List Coord),
          corpus_points := rowMajor s.corpus.width s.corpus.height,
          sorted_offsets := ([] : List Coord),
          diff_table := List.replicate 512 0,
          neighbors := ([] : List Neighbor), n_neighbors := 0,
          status := (⟨s.data.width, s.data.height, 1⟩ : Image),
          status_array :=
            List.replicate (s.data.width * s.data.height).toNat statusZero }, g) := by
  unfold resynth__init
  dsimp only
  rw [rowMajor_eq_nil hd]
  simp

/-- Claim C4 (amended): the neighbors setter clamps into [0, 1093], the
last entry of disc00 — not [0, 1105] as the spec table says: values below
0 become 0, values above 1093 become 1093, in-range values are stored
unchanged, no other field changes, and the setter is total (never
fatal). -/
theorem claim_C4_neighbors_setter (p : Parameters) (n : Int) :
    (resynth_parameters_neighbors p n).neighbors = min (max n 0) 1093 ∧
    (n < 0 → (resynth_parameters_neighbors p n).neighbors = 0) ∧
    (1093 < n → (resynth_parameters_neighbors p n).neighbors = 1093) ∧
    (0 ≤ n → n ≤ 1093 → (resynth_parameters_neighbors p n).neighbors = n) := by
  have h : (resynth_parameters_neighbors p n).neighbors = min (max n 0) 1093 := rfl
  refine ⟨h, ?_, ?_, ?_⟩
  · intro h1
    rw [h]
    omega
  · intro h1
    rw [h]
    omega
  · intro h1 h2
    rw [h]
    omega

/-- Witness for C4 at concrete inputs. -/
theorem claim_C4_neighbors_setter_witness :
    (resynth_parameters_neighbors ⟨false, false, 0, 29, 192, 192, 0⟩ (-5)).neighbors = 0 ∧
    (resynth_parameters_neighbors ⟨false, false, 0, 29, 192, 192, 0⟩ 2000).neighbors = 1093 ∧
    (resynth_parameters_neighbors ⟨false, false, 0, 29, 192, 192, 0⟩ 500).neighbors = 500 :=
  ⟨(claim_C4_neighbors_setter _ (-5)).2.1 (by norm_num),
   (claim_C4_neighbors_setter _ 2000).2.2.1 (by norm_num),
   (claim_C4_neighbors_setter _ 500).2.2.2 (by norm_num) (by norm_num)⟩

/-- Counterexample to C4 as stated: 1105 lies inside the claimed domain
[0, 1105], so the claim requires it to be stored unchanged, but the setter
clamps it to 1093 (disc00 ends at 1093). -/
theorem claim_C4_counterexample :
    (resynth_parameters_neighbors ⟨false, false, 0, 29, 192, 192, 0⟩ 1105).neighbors = 1093 ∧
    (1093 : Int) ≠ 1105 := by
  constructor
  · rfl
  · decide

/-- Claim C1 (amended): for an out-of-corpus offset point, try_point adds
diff_table[0] times the channel count — the delta = -256 entry, which is
the maximum per-channel cost 65536 — not diff_table[256] times the channel
count (the zero-delta entry, which is 0). -/
theorem claim_C1_edge_penalty :
    (∀ (s : Resynth_state) (point : Coord) (i : Nat) (nb : Neighbor),
      ((coord_add point nb.offset).x < 0 ∨ (coord_add point nb.offset).y < 0 ∨
        s.corpus.width ≤ (coord_add point nb.offset).x ∨
        s.corpus.height ≤ (coord_add point nb.offset).y) →
      neighborDiff s point i nb = s.diff_table.getD 0 0 * s.input_bytes) ∧
    (∀ a : ℚ, (mkDiffTable a).getD 0 0 = 65536 ∧ (mkDiffTable a).getD 256 0 = 0) := by
  constructor
  · intro s point i nb hoob
    unfold neighborDiff
    rw [if_pos hoob]
  · intro a
    constructor
    · rw [mkDiffTable_getD a 0 (by norm_num),
        show ((0 : ℕ) : ℤ) - 256 = -256 by norm_num]
      exact diffTableVal_edge a
    · rw [mkDiffTable_getD a 256 (by norm_num),
        show ((256 : ℕ) : ℤ) - 256 = 0 by norm_num]
      exact diffTableVal_center a

/-- Witness for C1 at a concrete state: a 1x1 corpus, one neighbor whose
offset point (1,0) lies outside, with the autism = 0 table. -/
theorem claim_C1_edge_penalty_witness :
    neighborDiff
      { resynth_state_create_from_memory [5] 1 1 1 1 with diff_table := mkDiffTable 0 }
      ⟨0, 0⟩ 1 ⟨⟨1, 0⟩, ⟨0, 0⟩, [0]⟩ =
      ({ resynth_state_create_from_memory [5] 1 1 1 1 with
          diff_table := mkDiffTable 0 } : Resynth_state).diff_table.getD 0 0 *
      ({ resynth_state_create_from_memory [5] 1 1 1 1 with
          diff_table := mkDiffTable 0 } : Resynth_state).input_bytes ∧
    (mkDiffTable 0).getD 0 0 = 65536 :=
  ⟨claim_C1_edge_penalty.1 _ ⟨0, 0⟩ 1 ⟨⟨1, 0⟩, ⟨0, 0⟩, [0]⟩ (by decide),
   (claim_C1_edge_penalty.2 0).1⟩

/-- Counterexample to C1 as stated: at the same concrete state the cost
actually added for the out-of-corpus neighbor is 65536, while the claimed
value diff_table[256] times the channel count is 0. -/
theorem claim_C1_counterexample :
    neighborDiff
      { resynth_state_create_from_memory [5] 1 1 1 1 with diff_table := mkDiffTable 0 }
      ⟨0, 0⟩ 1 ⟨⟨1, 0⟩, ⟨0, 0⟩, [0]⟩ = 65536 ∧
    ({ resynth_state_create_from_memory [5] 1 1 1 1 with
        diff_table := mkDiffTable 0 } : Resynth_state).diff_table.getD 256 0 *
      ({ resynth_state_create_from_memory [5] 1 1 1 1 with
          diff_table := mkDiffTable 0 } : Resynth_state).input_bytes = 0 := by
  constructor
  · decide
  · decide

/-- Claim C5: shape of the difference table.  With autism = 0 the table is
a Kronecker delta (entry 256 is 0, every other of the 512 entries is
65536); with autism > 0 the center entry is 0, the table is symmetric
about index 256, and entries are monotonically non-decreasing in the
absolute delta.  The C double computation is modelled exactly over the
reals. -/
theorem claim_C5_difference_table_shape (a : ℚ) :
    (a = 0 →
      (mkDiffTable a).getD 256 0 = 0 ∧
      ∀ k : Nat, k < 512 → k ≠ 256 → (mkDiffTable a).getD k 0 = 65536) ∧
    (0 < a →
      (mkDiffTable a).getD 256 0 = 0 ∧
      (∀ i : Int, 0 ≤ i → i ≤ 255 →
        (mkDiffTable a).getD (256 + i).toNat 0 =
          (mkDiffTable a).getD (256 - i).toNat 0) ∧
      (∀ i j : Int, -256 ≤ i → i ≤ 255 → -256 ≤ j → j ≤ 255 → |i| ≤ |j| →
        (mkDiffTable a).getD (256 + i).toNat 0 ≤
          (mkDiffTable a).getD (256 + j).toNat 0)) := by
  constructor
  · intro ha0
    constructor
    · rw [mkDiffTable_getD a 256 (by norm_num),
        show ((256 : ℕ) : ℤ) - 256 = 0 by norm_num]
      exact diffTableVal_center a
    · intro k hk hk256
      rw [mkDiffTable_getD a k hk,
        diffTableVal_autism_nonpos a (by rw [ha0]; exact lt_irrefl 0) _,
        if_neg (by omega)]
  · intro ha
    refine ⟨?_, ?_, ?_⟩
    · rw [mkDiffTable_getD a 256 (by norm_num),
        show ((256 : ℕ) : ℤ) - 256 = 0 by norm_num]
      exact diffTableVal_center a
    · intro i h0 h255
      rw [mkDiffTable_getD_int a (256 + i) (by omega) (by omega),
        mkDiffTable_getD_int a (256 - i) (by omega) (by omega),
        show 256 + i - 256 = i by ring, show 256 - i - 256 = -i by ring,
        diffTableVal_symm]
    · intro i j hi0 hi1 hj0 hj1 hij
      rw [mkDiffTable_getD_int a (256 + i) (by omega) (by omega),
        mkDiffTable_getD_int a (256 + j) (by omega) (by omega),
        show 256 + i - 256 = i by ring, show 256 + j - 256 = j by ring]
      exact diffTableVal_mono a ha hij

/-- Witness for C5 at concrete inputs. -/
theorem claim_C5_difference_table_shape_witness :
    (mkDiffTable 0).getD 256 0 = 0 ∧
    (mkDiffTable 0).getD 100 0 = 65536 ∧
    (mkDiffTable (32 / 256)).getD 256 0 = 0 ∧
    (mkDiffTable (32 / 256)).getD ((256 : ℤ) + 44).toNat 0 =
      (mkDiffTable (32 / 256)).getD ((256 : ℤ) - 44).toNat 0 ∧
    (mkDiffTable (32 / 256)).getD ((256 : ℤ) + 10).toNat 0 ≤
      (mkDiffTable (32 / 256)).getD ((256 : ℤ) + 200).toNat 0 :=
  ⟨((claim_C5_difference_table_shape 0).1 rfl).1,
   ((claim_C5_difference_table_shape 0).1 rfl).2 100 (by norm_num) (by norm_num),
   ((claim_C5_difference_table_shape (32 / 256)).2 (by norm_num)).1,
   ((claim_C5_difference_table_shape (32 / 256)).2 (by norm_num)).2.1 44
     (by norm_num) (by norm_num),
   ((claim_C5_difference_table_shape (32 / 256)).2 (by norm_num)).2.2 10 200
     (by norm_num) (by norm_num) (by norm_num) (by norm_num) (by decide)⟩

/-- Claim C9, evaluation at the failing input: with neighbors = 0 (allowed
by the setter's domain) the first iteration still records one neighbor —
the position itself via the zero offset — because the C loop writes
s->neighbors[n_neighbors] before testing n_neighbors >= parameters.neighbors,
so the write lands in arrays allocated with capacity 0. -/
theorem claim_C9_overflow_at_zero_neighbors :
    (stepPre ⟨false, false, 0, 0, 1, 0, 3⟩ 0
      (resynth__init ⟨false, false, 0, 0, 1, 0, 3⟩
        (resynth_state_create_from_memory [7] 1 1 1 (-1), pcgSeed 3))).1.n_neighbors = 1 ∧
    (⟨false, false, 0, 0, 1, 0, 3⟩ : Parameters).neighbors = 0 := by
  constructor
  · decide
  · decide

/-- Claim C3 (amended): when the output has zero pixels the core returns
without synthesizing — the output buffer remains zero-initialized, every
status cell remains the calloc value, and the façade still reports
valid = true.  (When only the corpus is empty the early return in
resynth__init does not stop the synthesis loop; see the counterexample.) -/
theorem claim_C3_empty_output (pixels : List Nat) (w h ch scale : Int) (p : Parameters)
    (hd : (resynth_state_create_from_memory pixels w h ch scale).data.width ≤ 0 ∨
      (resynth_state_create_from_memory pixels w h ch scale).data.height ≤ 0) :
    (∀ b ∈ (resynth_run (resynth_state_create_from_memory pixels w h ch scale)
        p).2.1.data_array, b = 0) ∧
    (∀ st ∈ (resynth_run (resynth_state_create_from_memory pixels w h ch scale)
        p).2.1.status_array, st = statusZero) ∧
    (resynth_run (resynth_state_create_from_memory pixels w h ch scale) p).1.valid = true := by
  unfold resynth_run resynth
  dsimp only
  rw [resynth__init_empty_data _ _ _ hd]
  refine ⟨?_, ?_, rfl⟩
  · intro b hb
    exact List.eq_of_mem_replicate hb
  · intro st hst
    exact List.eq_of_mem_replicate hst

/-- Witness for C3 (amended) at a concrete input: a 2x2 corpus scaled by
0 times its width gives a 0x0 output. -/
theorem claim_C3_empty_output_witness :
    (∀ b ∈ (resynth_run (resynth_state_create_from_memory [1, 2, 3, 4] 0 2 1 1)
        ⟨false, false, 0, 29, 192, 192, 0⟩).2.1.data_array, b = 0) ∧
    (∀ st ∈ (resynth_run (resynth_state_create_from_memory [1, 2, 3, 4] 0 2 1 1)
        ⟨false, false, 0, 29, 192, 192, 0⟩).2.1.status_array, st = statusZero) ∧
    (resynth_run (resynth_state_create_from_memory [1, 2, 3, 4] 0 2 1 1)
      ⟨false, false, 0, 29, 192, 192, 0⟩).1.valid = true :=
  claim_C3_empty_output [1, 2, 3, 4] 0 2 1 1 ⟨false, false, 0, 29, 192, 192, 0⟩
    (Or.inl (by decide))

/-- Counterexample to C3 as stated: with an empty corpus but a 1x1 output
(scale -1), resynth__init returns early yet the synthesis loop still runs:
the single status cell is modified (has_value and has_source become true),
while the façade reports valid = true.  The claim asserted no status cell
is modified for every combination of empty corpus and/or empty output. -/
theorem claim_C3_counterexample :
    ((resynth_run (resynth_state_create_from_memory [] 0 0 1 (-1))
      ⟨false, false, 0, 1, 0, 0, 5⟩).2.1.status_array.getD 0 statusZero).has_value = true ∧
    ((resynth_run (resynth_state_create_from_memory [] 0 0 1 (-1))
      ⟨false, false, 0, 1, 0, 0, 5⟩).2.1.status_array.getD 0 statusZero).has_source = true ∧
    (resynth_state_create_from_memory [] 0 0 1 (-1)).corpus.width = 0 ∧
    (resynth_run (resynth_state_create_from_memory [] 0 0 1 (-1))
      ⟨false, false, 0, 1, 0, 0, 5⟩).2.1.data_points.length = 1 ∧
    (resynth_run (resynth_state_create_from_memory [] 0 0 1 (-1))
      ⟨false, false, 0, 1, 0, 0, 5⟩).1.valid = true := by
  refine ⟨?_, ?_, ?_, ?_, ?_⟩ <;> decide

/-! ## Shuffle lemmas -/

lemma listSwap_perm (l : List Coord) (i j : Nat) : (listSwap l i j).Perm l := by
  unfold listSwap
  rcases hi : l[i]? with _ | a
  · exact List.Perm.refl l
  rcases hj : l[j]? with _ | b
  · exact List.Perm.refl l
  obtain ⟨hil, hia⟩ := List.getElem?_eq_some.mp hi
  obtain ⟨hjl, hjb⟩ := List.getElem?_eq_some.mp hj
  rw [List.perm_iff_count]
  intro x
  have hjl2 : j < (l.set i b).length := by
    rw [List.length_set]
    exact hjl
  rw [List.count_set a x (l.set i b) j hjl2, List.count_set b x l i hil]
  have hsb : (l.set i b)[j] = b := by
    by_cases hij : i = j
    · subst hij
      exact List.getElem_set_self hjl2
    · rw [List.getElem_set_ne hij hjl2]
      exact hjb
  rw [hsb, hia]
  have hmem : a ∈ l := by
    rw [← hia]
    exact List.getElem_mem hil
  have hca : (a == x) = true → 1 ≤ l.count x := by
    intro hax
    have hax2 : a = x := by exact beq_iff_eq.mp hax
    subst hax2
    exact List.count_pos_iff.mpr hmem
  by_cases hax : (a == x) = true
  · have h1 := hca hax
    by_cases hbx : (b == x) = true
    · rw [if_pos hax, if_pos hbx]
      omega
    · rw [if_pos hax, if_neg hbx]
      omega
  · by_cases hbx : (b == x) = true
    · rw [if_neg hax, if_pos hbx]
      omega
    · rw [if_neg hax, if_neg hbx]
      omega

lemma shuffleGo_perm (area : Int) :
    ∀ (fuel i : Nat) (lg : List Coord × Pcg), (shuffleGo area fuel i lg).1.Perm lg.1 := by
  intro fuel
  induction fuel with
  | zero =>
    intro i lg
    exact List.Perm.refl _
  | succ k ih =>
    intro i lg
    exact List.Perm.trans (ih (i + 1) _) (listSwap_perm lg.1 i _)

/-! ## Polishing-loop lemmas -/

lemma mem_append_take (pts : List Coord) (m : Nat) (c : Coord) :
    c ∈ pts ++ pts.take m ↔ c ∈ pts := by
  constructor
  · intro hc
    rcases List.mem_append.mp hc with hc | hc
    · exact hc
    · exact List.take_subset m pts hc
  · intro hc
    exact List.mem_append.mpr (Or.inl hc)

lemma polishLoop_mem (magic : Int) (n : Int) (pts : List Coord) (c : Coord) :
    c ∈ polishLoop magic pts n ↔ c ∈ pts := by
  have H : ∀ (k : Nat) (n : Int), n.toNat ≤ k → ∀ (pts : List Coord),
      (c ∈ polishLoop magic pts n ↔ c ∈ pts) := by
    intro k
    induction k with
    | zero =>
      intro n hn pts
      rw [polishLoop]
      rw [dif_neg (by omega)]
      exact mem_append_take pts _ c
    | succ k ih =>
      intro n hn pts
      rw [polishLoop]
      by_cases hcond : 0 < Int.tdiv (n * magic) 256 ∧ Int.tdiv (n * magic) 256 < n
      · rw [dif_pos hcond]
        rw [ih _ (by omega) _]
        exact mem_append_take pts _ c
      · rw [dif_neg hcond]
        exact mem_append_take pts _ c
  exact H n.toNat n le_rfl pts

lemma tdiv_magic_bounds (magic n : Int) (hm0 : 0 ≤ magic) (hm1 : magic ≤ 255)
    (hn : 0 < n) :
    0 ≤ Int.tdiv (n * magic) 256 ∧ Int.tdiv (n * magic) 256 < n := by
  have h0 : 0 ≤ n * magic := mul_nonneg (le_of_lt hn) hm0
  rw [Int.tdiv_eq_ediv h0 (by norm_num)]
  constructor
  · exact Int.ediv_nonneg h0 (by norm_num)
  · rw [Int.ediv_lt_iff_lt_mul (by norm_num)]
    nlinarith

lemma tdiv_magic_nonpos (magic n : Int) (hm0 : 0 ≤ magic) (hn : n ≤ 0) :
    Int.tdiv (n * magic) 256 ≤ 0 := by
  have h0 : 0 ≤ (-(n * magic)) := by nlinarith
  have h1 : Int.tdiv (-(n * magic)) 256 = -(Int.tdiv (n * magic) 256) := Int.neg_tdiv _ _
  have h2 : 0 ≤ Int.tdiv (-(n * magic)) 256 := by
    rw [Int.tdiv_eq_ediv h0 (by norm_num)]
    exact Int.ediv_nonneg h0 (by norm_num)
  omega

lemma polishLoop_eq_segs (magic : Int) (hm0 : 0 < magic) (hm1 : magic ≤ 255)
    (n : Int) (pts : List Coord) :
    polishLoop magic pts n = pts ++ (specSegs magic pts n).flatten := by
  have H : ∀ (k : Nat) (n : Int), n.toNat ≤ k → ∀ (pts : List Coord),
      polishLoop magic pts n = pts ++ (specSegs magic pts n).flatten := by
    intro k
    induction k with
    | zero =>
      intro n hn pts
      rw [polishLoop, specSegs]
      rw [dif_neg (by omega), dif_neg (by omega)]
      have hnz : Int.tdiv (n * magic) 256 ≤ 0 :=
        tdiv_magic_nonpos magic n (le_of_lt hm0) (by omega)
      have : (Int.tdiv (n * magic) 256).toNat = 0 := by omega
      rw [this]
      simp
    | succ k ih =>
      intro n hn pts
      rw [polishLoop, specSegs]
      by_cases hcond : 0 < Int.tdiv (n * magic) 256 ∧ Int.tdiv (n * magic) 256 < n
      · rw [dif_pos hcond, dif_pos hcond, ih _ (by omega) _]
        simp [List.append_assoc]
      · rw [dif_neg hcond, dif_neg hcond]
        have hnz : Int.tdiv (n * magic) 256 ≤ 0 := by
          by_cases hn0 : 0 < n
          · have := tdiv_magic_bounds magic n (le_of_lt hm0) hm1 hn0
            omega
          · exact tdiv_magic_nonpos magic n (le_of_lt hm0) (by omega)
        have : (Int.tdiv (n * magic) 256).toNat = 0 := by omega
        rw [this]
        simp
  exact H n.toNat n le_rfl pts

lemma polishLoop_length (magic : Int) (hm0 : 0 < magic) (hm1 : magic ≤ 255) :
    ∀ (n : Int) (pts : List Coord), 0 < n → n ≤ (pts.length : Int) →
      ((polishLoop magic pts n).length : Int) = (pts.length : Int) + specTailSum magic n := by
  have H : ∀ (k : Nat) (n : Int), n.toNat ≤ k → ∀ (pts : List Coord),
      0 < n → n ≤ (pts.length : Int) →
      ((polishLoop magic pts n).length : Int) = (pts.length : Int) + specTailSum magic n := by
    intro k
    induction k with
    | zero =>
      intro n hn pts hn0 hnl
      omega
    | succ k ih =>
      intro n hn pts hn0 hnl
      obtain ⟨hd0, hdlt⟩ := tdiv_magic_bounds magic n (le_of_lt hm0) hm1 hn0
      rw [polishLoop, specTailSum]
      have hlen : ((pts ++ pts.take (Int.tdiv (n * magic) 256).toNat).length : Int) =
          (pts.length : Int) + Int.tdiv (n * magic) 256 := by
        rw [List.length_append, List.length_take]
        omega
      by_cases hcond : 0 < Int.tdiv (n * magic) 256 ∧ Int.tdiv (n * magic) 256 < n
      · rw [dif_pos hcond, dif_pos hcond]
        rw [ih _ (by omega) _ hcond.1 (by omega)]
        rw [hlen]
        ring
      · rw [dif_neg hcond, dif_neg hcond]
        have hz : (Int.tdiv (n * magic) 256).toNat = 0 := by omega
        rw [hz] at hlen ⊢
        omega
  intro n pts hn0 hnl
  exact H n.toNat n le_rfl pts hn0 hnl

/-! ## Row-major coordinate list lemmas -/

lemma rowMajor_mem (w h : Int) (c : Coord) :
    c ∈ rowMajor w h ↔ 0 ≤ c.x ∧ c.x < w ∧ 0 ≤ c.y ∧ c.y < h := by
  unfold rowMajor
  rw [List.mem_flatten]
  constructor
  · rintro ⟨row, hrow, hcrow⟩
    obtain ⟨y, hy, rfl⟩ := List.mem_map.mp hrow
    obtain ⟨x, hx, rfl⟩ := List.mem_map.mp hcrow
    have hy2 := List.mem_range.mp hy
    have hx2 := List.mem_range.mp hx
    refine ⟨?_, ?_, ?_, ?_⟩
    · show (0 : Int) ≤ (x : Int)
      omega
    · show ((x : Nat) : Int) < w
      omega
    · show (0 : Int) ≤ (y : Int)
      omega
    · show ((y : Nat) : Int) < h
      omega
  · rintro ⟨h1, h2, h3, h4⟩
    have hcx : ((c.x.toNat : Nat) : Int) = c.x := Int.toNat_of_nonneg h1
    have hcy : ((c.y.toNat : Nat) : Int) = c.y := Int.toNat_of_nonneg h3
    refine ⟨(List.range w.toNat).map (fun (x : Nat) => (⟨(x : Int), c.y⟩ : Coord)), ?_, ?_⟩
    · apply List.mem_map.mpr
      refine ⟨c.y.toNat, List.mem_range.mpr (by omega), ?_⟩
      simp only [hcy]
    · apply List.mem_map.mpr
      refine ⟨c.x.toNat, List.mem_range.mpr (by omega), ?_⟩
      show (⟨((c.x.toNat : Nat) : Int), c.y⟩ : Coord) = c
      rw [hcx]

lemma rowMajor_nodup (w h : Int) : (rowMajor w h).Nodup := by
  unfold rowMajor
  rw [List.nodup_flatten]
  constructor
  · intro l hl
    obtain ⟨y, hy, rfl⟩ := List.mem_map.mp hl
    refine List.Nodup.map ?_ (List.nodup_range _)
    intro a b hab
    have : ((a : Int)) = (b : Int) := by
      have := congrArg Coord.x hab
      simpa using this
    exact_mod_cast this
  · rw [List.pairwise_map]
    apply List.Pairwise.imp ?_ (List.pairwise_lt_range h.toNat)
    intro y1 y2 hlt
    intro c hc1 hc2
    obtain ⟨x1, hx1, heq1⟩ := List.mem_map.mp hc1
    obtain ⟨x2, hx2, heq2⟩ := List.mem_map.mp hc2
    have hy : ((y1 : Int)) = (y2 : Int) := by
      have e1 := congrArg Coord.y heq1
      have e2 := congrArg Coord.y heq2
      simp at e1 e2
      omega
    have : y1 = y2 := by exact_mod_cast hy
    omega

lemma rowMajor_count_one (w h : Int) (c : Coord) (hc : c ∈ rowMajor w h) :
    (rowMajor w h).count c = 1 :=
  List.count_eq_one_of_mem (rowMajor_nodup w h) hc

lemma rowMajor_length (w h : Int) : (rowMajor w h).length = h.toNat * w.toNat := by
  unfold rowMajor
  rw [List.length_flatten, List.map_map]
  have hcomp : (List.length ∘ fun (y : Nat) =>
      (List.range w.toNat).map (fun (x : Nat) => (⟨(x : Int), (y : Int)⟩ : Coord))) =
      fun (_ : Nat) => w.toNat := by
    funext y
    simp
  rw [hcomp]
  have hsum : ∀ (m : Nat), ((List.range m).map (fun (_ : Nat) => w.toNat)).sum = m * w.toNat := by
    intro m
    induction m with
    | zero => simp
    | succ k ih =>
      rw [List.range_succ, List.map_append, List.sum_append, ih]
      simp
      ring
  exact hsum h.toNat

/-! ## resynth__init characterization -/

lemma resynth__init_early (s : Resynth_state) (p : Parameters) (g : Pcg)
    (hor : (rowMajor s.corpus.width s.corpus.height).length = 0 ∨
      (rowMajor s.data.width s.data.height).length = 0) :
    resynth__init p (s, g) =
      ({ s with
          data_points := rowMajor s.data.width s.data.height,
          corpus_points := rowMajor s.corpus.width s.corpus.height,
          sorted_offsets := ([] : List Coord),
          diff_table := List.replicate 512 0,
          neighbors := ([] : List Neighbor), n_neighbors := 0,
          status := (⟨s.data.width, s.data.height, 1⟩ : Image),
          status_array :=
            List.replicate (s.data.width * s.data.height).toNat statusZero }, g) := by
  unfold resynth__init
  dsimp only
  rw [if_pos hor]

lemma resynth__init_eq_nonempty (s : Resynth_state) (p : Parameters) (g : Pcg)
    (hc : (rowMajor s.corpus.width s.corpus.height).length ≠ 0)
    (hd : (rowMajor s.data.width s.data.height).length ≠ 0) :
    resynth__init p (s, g) =
      ({ s with
          data_points :=
            (if p.magic ≠ 0 then
              polishLoop p.magic
                (shuffleGo ((rowMajor s.data.width s.data.height).length : Int)
                  (((rowMajor s.data.width s.data.height).length : Int)).toNat 0
                  (rowMajor s.data.width s.data.height, g)).1
                ((rowMajor s.data.width s.data.height).length : Int)
            else
              (shuffleGo ((rowMajor s.data.width s.data.height).length : Int)
                (((rowMajor s.data.width s.data.height).length : Int)).toNat 0
                (rowMajor s.data.width s.data.height, g)).1),
          corpus_points := rowMajor s.corpus.width s.corpus.height,
          sorted_offsets := make_offset_list s,
          status := (⟨s.data.width, s.data.height, 1⟩ : Image),
          status_array := List.replicate (s.data.width * s.data.height).toNat statusZero,
          tried := (⟨s.corpus.width, s.corpus.height, 1⟩ : Image),
          tried_array := List.replicate (s.corpus.width * s.corpus.height).toNat (-1),
          neighbors := ([] : List Neighbor),
          n_neighbors := 0,
          diff_table := mkDiffTable p.autism },
        (shuffleGo ((rowMajor s.data.width s.data.height).length : Int)
          (((rowMajor s.data.width s.data.height).length : Int)).toNat 0
          (rowMajor s.data.width s.data.height, g)).2) := by
  unfold resynth__init
  dsimp only
  rw [if_neg (by push_neg; exact ⟨hc, hd⟩)]
  rfl

/-- Claim C6: after resynth__init on a non-empty output, the visitation
array contains every output coordinate at least once, for every seed and
PRNG state; with magic = 0 it contains each exactly once — the shuffle
step produces a permutation of the row-major coordinate list. -/
theorem claim_C6_visitation_covers (s : Resynth_state) (p : Parameters) (g : Pcg)
    (x y : Int) (hx0 : 0 ≤ x) (hx1 : x < s.data.width)
    (hy0 : 0 ≤ y) (hy1 : y < s.data.height) :
    (⟨x, y⟩ : Coord) ∈ (resynth__init p (s, g)).1.data_points ∧
    (p.magic = 0 →
      (resynth__init p (s, g)).1.data_points.count ⟨x, y⟩ = 1 ∧
      (resynth__init p (s, g)).1.data_points.Perm
        (rowMajor s.data.width s.data.height)) := by
  have hmem : (⟨x, y⟩ : Coord) ∈ rowMajor s.data.width s.data.height :=
    (rowMajor_mem _ _ _).mpr ⟨hx0, hx1, hy0, hy1⟩
  by_cases hor : (rowMajor s.corpus.width s.corpus.height).length = 0 ∨
      (rowMajor s.data.width s.data.height).length = 0
  · rw [resynth__init_early s p g hor]
    exact ⟨hmem, fun _ => ⟨rowMajor_count_one _ _ _ hmem, List.Perm.refl _⟩⟩
  · push_neg at hor
    rw [resynth__init_eq_nonempty s p g hor.1 hor.2]
    dsimp only
    have hperm := shuffleGo_perm ((rowMajor s.data.width s.data.height).length : Int)
      (((rowMajor s.data.width s.data.height).length : Int)).toNat 0
      (rowMajor s.data.width s.data.height, g)
    by_cases hm : p.magic ≠ 0
    · rw [if_pos hm]
      refine ⟨?_, fun h0 => absurd h0 hm⟩
      rw [polishLoop_mem]
      exact hperm.mem_iff.mpr hmem
    · rw [if_neg hm]
      refine ⟨hperm.mem_iff.mpr hmem, fun _ => ⟨?_, hperm⟩⟩
      rw [hperm.count_eq]
      exact rowMajor_count_one _ _ _ hmem

/-- Witness for C6 at a concrete input. -/
theorem claim_C6_visitation_covers_witness :
    (⟨1, 1⟩ : Coord) ∈
      (resynth__init ⟨false, false, 0, 29, 192, 0, 0⟩
        (resynth_state_create_from_memory [9, 9, 9, 9] 2 2 1 1, pcgSeed 7)).1.data_points ∧
    ((⟨false, false, 0, 29, 192, 0, 0⟩ : Parameters).magic = 0 →
      (resynth__init ⟨false, false, 0, 29, 192, 0, 0⟩
        (resynth_state_create_from_memory [9, 9, 9, 9] 2 2 1 1,
          pcgSeed 7)).1.data_points.count ⟨1, 1⟩ = 1 ∧
      (resynth__init ⟨false, false, 0, 29, 192, 0, 0⟩
        (resynth_state_create_from_memory [9, 9, 9, 9] 2 2 1 1,
          pcgSeed 7)).1.data_points.Perm
        (rowMajor (resynth_state_create_from_memory [9, 9, 9, 9] 2 2 1 1).data.width
          (resynth_state_create_from_memory [9, 9, 9, 9] 2 2 1 1).data.height)) :=
  claim_C6_visitation_covers (resynth_state_create_from_memory [9, 9, 9, 9] 2 2 1 1)
    ⟨false, false, 0, 29, 192, 0, 0⟩ (pcgSeed 7) 1 1
    (by decide) (by decide) (by decide) (by decide)

/-- Claim C7: polishing tail geometry.  For magic in (0, 255] (the
parameter's documented domain; for magic at least 256 the C loop does not
terminate) and a non-empty output and corpus, the visitation length equals
N plus the sum of the geometrically decaying n_i, and the array is a
shuffled base (a permutation of the row-major list) followed by the
spec-described segments, each the first n_i elements of the array at the
time of appending. -/
theorem claim_C7_polish_tail_geometry (s : Resynth_state) (p : Parameters) (g : Pcg)
    (hm0 : 0 < p.magic) (hm1 : p.magic ≤ 255)
    (hc : (rowMajor s.corpus.width s.corpus.height).length ≠ 0)
    (hd : (rowMajor s.data.width s.data.height).length ≠ 0) :
    (((resynth__init p (s, g)).1.data_points.length : Int) =
      ((rowMajor s.data.width s.data.height).length : Int) +
        specTailSum p.magic ((rowMajor s.data.width s.data.height).length : Int)) ∧
    ∃ base : List Coord,
      base.Perm (rowMajor s.data.width s.data.height) ∧
      (resynth__init p (s, g)).1.data_points =
        base ++ (specSegs p.magic base
          ((rowMajor s.data.width s.data.height).length : Int)).flatten := by
  rw [resynth__init_eq_nonempty s p g hc hd]
  dsimp only
  rw [if_pos (by omega : p.magic ≠ 0)]
  have hperm := shuffleGo_perm ((rowMajor s.data.width s.data.height).length : Int)
    (((rowMajor s.data.width s.data.height).length : Int)).toNat 0
    (rowMajor s.data.width s.data.height, g)
  have hlen : (shuffleGo ((rowMajor s.data.width s.data.height).length : Int)
      (((rowMajor s.data.width s.data.height).length : Int)).toNat 0
      (rowMajor s.data.width s.data.height, g)).1.length =
      (rowMajor s.data.width s.data.height).length := hperm.length_eq
  constructor
  · rw [polishLoop_length p.magic hm0 hm1 _ _ (by omega) (by rw [hlen])]
    rw [hlen]
  · refine ⟨_, hperm, ?_⟩
    rw [polishLoop_eq_segs p.magic hm0 hm1]

/-- Witness for C7 at a concrete input (2x2 corpus, 2x2 output,
magic = 192). -/
theorem claim_C7_polish_tail_geometry_witness :
    (((resynth__init ⟨false, false, 0, 29, 192, 192, 0⟩
        (resynth_state_create_from_memory [9, 9, 9, 9] 2 2 1 1,
          pcgSeed 7)).1.data_points.length : Int) =
      ((rowMajor (resynth_state_create_from_memory [9, 9, 9, 9] 2 2 1 1).data.width
        (resynth_state_create_from_memory [9, 9, 9, 9] 2 2 1 1).data.height).length : Int) +
        specTailSum 192
          ((rowMajor (resynth_state_create_from_memory [9, 9, 9, 9] 2 2 1 1).data.width
            (resynth_state_create_from_memory [9, 9, 9, 9] 2 2 1 1).data.height).length : Int)) ∧
    ∃ base : List Coord,
      base.Perm (rowMajor (resynth_state_create_from_memory [9, 9, 9, 9] 2 2 1 1).data.width
        (resynth_state_create_from_memory [9, 9, 9, 9] 2 2 1 1).data.height) ∧
      (resynth__init ⟨false, false, 0, 29, 192, 192, 0⟩
        (resynth_state_create_from_memory [9, 9, 9, 9] 2 2 1 1,
          pcgSeed 7)).1.data_points =
        base ++ (specSegs 192 base
          ((rowMajor (resynth_state_create_from_memory [9, 9, 9, 9] 2 2 1 1).data.width
            (resynth_state_create_from_memory
              [9, 9, 9, 9] 2 2 1 1).data.height).length : Int)).flatten :=
  claim_C7_polish_tail_geometry (resynth_state_create_from_memory [9, 9, 9, 9] 2 2 1 1)
    ⟨false, false, 0, 29, 192, 192, 0⟩ (pcgSeed 7)
    (by decide) (by decide) (by decide) (by decide)

/-! ## Frame lemmas: which state fields each phase leaves unchanged -/

/-- The fields of the state that the scoring machinery (try_point, the
coherence loop, the random probes) never writes. -/
def scoreFrame (s t : Resynth_state) : Prop :=
  t.input_bytes = s.input_bytes ∧ t.data = s.data ∧ t.corpus = s.corpus ∧
  t.status = s.status ∧ t.data_array = s.data_array ∧
  t.corpus_array = s.corpus_array ∧ t.status_array = s.status_array ∧
  t.data_points = s.data_points ∧ t.corpus_points = s.corpus_points ∧
  t.sorted_offsets = s.sorted_offsets ∧ t.tried = s.tried ∧
  t.neighbors = s.neighbors ∧ t.diff_table = s.diff_table

lemma scoreFrame_refl (s : Resynth_state) : scoreFrame s s :=
  ⟨rfl, rfl, rfl, rfl, rfl, rfl, rfl, rfl, rfl, rfl, rfl, rfl, rfl⟩

lemma scoreFrame_trans {s t u : Resynth_state} (h1 : scoreFrame s t)
    (h2 : scoreFrame t u) : scoreFrame s u := by
  obtain ⟨a1, a2, a3, a4, a5, a6, a7, a8, a9, a10, a11, a12, a13⟩ := h1
  obtain ⟨b1, b2, b3, b4, b5, b6, b7, b8, b9, b10, b11, b12, b13⟩ := h2
  exact ⟨b1.trans a1, b2.trans a2, b3.trans a3, b4.trans a4, b5.trans a5,
    b6.trans a6, b7.trans a7, b8.trans a8, b9.trans a9, b10.trans a10,
    b11.trans a11, b12.trans a12, b13.trans a13⟩

lemma try_point_scoreFrame (s : Resynth_state) (pt : Coord) :
    scoreFrame s (try_point s pt) := by
  unfold try_point
  cases tryPointGo s pt s.neighbors 0 0 <;> exact ⟨rfl, rfl, rfl, rfl, rfl, rfl, rfl, rfl, rfl, rfl, rfl, rfl, rfl⟩

lemma setTried_scoreFrame (s : Resynth_state) (c : Coord) (v : Int) :
    scoreFrame s (setTried s c v) :=
  ⟨rfl, rfl, rfl, rfl, rfl, rfl, rfl, rfl, rfl, rfl, rfl, rfl, rfl⟩

lemma try_point_tried_array (s : Resynth_state) (pt : Coord) :
    (try_point s pt).tried_array = s.tried_array := by
  unfold try_point
  cases tryPointGo s pt s.neighbors 0 0 <;> rfl

lemma try_point_best_point (s : Resynth_state) (pt : Coord) :
    (try_point s pt).best_point = pt ∨ (try_point s pt).best_point = s.best_point := by
  unfold try_point
  cases tryPointGo s pt s.neighbors 0 0
  · exact Or.inr rfl
  · exact Or.inl rfl

lemma coherenceGo_scoreFrame (i : Int) :
    ∀ (ns : List Neighbor) (s : Resynth_state), scoreFrame s (coherenceGo i ns s) := by
  intro ns
  induction ns with
  | nil =>
    intro s
    exact scoreFrame_refl s
  | cons nb rest ih =>
    intro s
    rw [coherenceGo]
    by_cases hb : s.best = 0
    · rw [if_pos hb]
      exact scoreFrame_refl s
    rw [if_neg hb]
    by_cases hs : (statusAt s nb.spoint).has_source
    · rw [if_pos hs]
      by_cases hoob : (coord_sub (statusAt s nb.spoint).source nb.offset).x < 0 ∨
          (coord_sub (statusAt s nb.spoint).source nb.offset).y < 0 ∨
          s.corpus.width ≤ (coord_sub (statusAt s nb.spoint).source nb.offset).x ∨
          s.corpus.height ≤ (coord_sub (statusAt s nb.spoint).source nb.offset).y
      · rw [if_pos hoob]
        exact ih s
      rw [if_neg hoob]
      by_cases htr : triedGet s.tried_array s.tried
          (coord_sub (statusAt s nb.spoint).source nb.offset) = i
      · rw [if_pos htr]
        exact ih s
      · rw [if_neg htr]
        refine scoreFrame_trans ?_ (ih _)
        exact scoreFrame_trans (try_point_scoreFrame s _) (setTried_scoreFrame _ _ _)
    · rw [if_neg hs]
      exact ih s

lemma triesGo_scoreFrame :
    ∀ (k : Nat) (sg : Resynth_state × Pcg), scoreFrame sg.1 (triesGo k sg).1 := by
  intro k
  induction k with
  | zero =>
    intro sg
    exact scoreFrame_refl _
  | succ k ih =>
    intro sg
    rw [triesGo]
    by_cases hb : sg.1.best = 0
    · rw [if_pos hb]
      exact scoreFrame_refl _
    · rw [if_neg hb]
      exact scoreFrame_trans (try_point_scoreFrame _ _) (ih _)

lemma triesGo_tried_array :
    ∀ (k : Nat) (sg : Resynth_state × Pcg), (triesGo k sg).1.tried_array = sg.1.tried_array := by
  intro k
  induction k with
  | zero =>
    intro sg
    rfl
  | succ k ih =>
    intro sg
    rw [triesGo]
    by_cases hb : sg.1.best = 0
    · rw [if_pos hb]
    · rw [if_neg hb]
      rw [ih _, try_point_tried_array]

lemma scoreFrame.input_bytes {s t : Resynth_state} (h : scoreFrame s t) :
    t.input_bytes = s.input_bytes := h.1

lemma scoreFrame.data {s t : Resynth_state} (h : scoreFrame s t) : t.data = s.data := h.2.1

lemma scoreFrame.corpus {s t : Resynth_state} (h : scoreFrame s t) : t.corpus = s.corpus :=
  h.2.2.1

lemma scoreFrame.status {s t : Resynth_state} (h : scoreFrame s t) : t.status = s.status :=
  h.2.2.2.1

lemma scoreFrame.data_array {s t : Resynth_state} (h : scoreFrame s t) :
    t.data_array = s.data_array := h.2.2.2.2.1

lemma scoreFrame.corpus_array {s t : Resynth_state} (h : scoreFrame s t) :
    t.corpus_array = s.corpus_array := h.2.2.2.2.2.1

lemma scoreFrame.status_array {s t : Resynth_state} (h : scoreFrame s t) :
    t.status_array = s.status_array := h.2.2.2.2.2.2.1

lemma scoreFrame.data_points {s t : Resynth_state} (h : scoreFrame s t) :
    t.data_points = s.data_points := h.2.2.2.2.2.2.2.1

lemma scoreFrame.corpus_points {s t : Resynth_state} (h : scoreFrame s t) :
    t.corpus_points = s.corpus_points := h.2.2.2.2.2.2.2.2.1

lemma scoreFrame.sorted_offsets {s t : Resynth_state} (h : scoreFrame s t) :
    t.sorted_offsets = s.sorted_offsets := h.2.2.2.2.2.2.2.2.2.1

lemma scoreFrame.tried {s t : Resynth_state} (h : scoreFrame s t) : t.tried = s.tried :=
  h.2.2.2.2.2.2.2.2.2.2.1

lemma scoreFrame.neighbors {s t : Resynth_state} (h : scoreFrame s t) :
    t.neighbors = s.neighbors := h.2.2.2.2.2.2.2.2.2.2.2.1

lemma scoreFrame.diff_table {s t : Resynth_state} (h : scoreFrame s t) :
    t.diff_table = s.diff_table := h.2.2.2.2.2.2.2.2.2.2.2.2

/-! ## Best-point bounds through the scoring phases -/

lemma getD_mem_or (l : List Coord) (i : Nat) (d : Coord) :
    l.getD i d ∈ l ∨ l.getD i d = d := by
  rcases Nat.lt_or_ge i l.length with hlt | hge
  · left
    rw [List.getD_eq_getElem?_getD, List.getElem?_eq_getElem hlt]
    exact List.getElem_mem hlt
  · right
    rw [List.getD_eq_getElem?_getD, List.getElem?_eq_none hge]
    rfl

lemma coherenceGo_best_point (i : Int) (C : Image) :
    ∀ (ns : List Neighbor) (s : Resynth_state), s.corpus = C → inB C s.best_point →
      inB C (coherenceGo i ns s).best_point := by
  intro ns
  induction ns with
  | nil =>
    intro s hC hbp
    exact hbp
  | cons nb rest ih =>
    intro s hC hbp
    rw [coherenceGo]
    by_cases hb : s.best = 0
    · rw [if_pos hb]
      exact hbp
    rw [if_neg hb]
    by_cases hs : (statusAt s nb.spoint).has_source
    · rw [if_pos hs]
      by_cases hoob : (coord_sub (statusAt s nb.spoint).source nb.offset).x < 0 ∨
          (coord_sub (statusAt s nb.spoint).source nb.offset).y < 0 ∨
          s.corpus.width ≤ (coord_sub (statusAt s nb.spoint).source nb.offset).x ∨
          s.corpus.height ≤ (coord_sub (statusAt s nb.spoint).source nb.offset).y
      · rw [if_pos hoob]
        exact ih s hC hbp
      rw [if_neg hoob]
      by_cases htr : triedGet s.tried_array s.tried
          (coord_sub (statusAt s nb.spoint).source nb.offset) = i
      · rw [if_pos htr]
        exact ih s hC hbp
      · rw [if_neg htr]
        push_neg at hoob
        have hptB : inB C (coord_sub (statusAt s nb.spoint).source nb.offset) := by
          rw [← hC]
          exact ⟨hoob.1, hoob.2.2.1, hoob.2.1, hoob.2.2.2⟩
        apply ih
        · exact ((try_point_scoreFrame s _).corpus).trans hC
        · show inB C (try_point s _).best_point
          rcases try_point_best_point s (coord_sub (statusAt s nb.spoint).source nb.offset)
            with h2 | h2 <;> rw [h2]
          · exact hptB
          · exact hbp
    · rw [if_neg hs]
      exact ih s hC hbp

lemma triesGo_best_point (C : Image) :
    ∀ (k : Nat) (sg : Resynth_state × Pcg), sg.1.corpus = C →
      (∀ c ∈ sg.1.corpus_points, inB C c) → inB C (⟨0, 0⟩ : Coord) →
      inB C sg.1.best_point → inB C (triesGo k sg).1.best_point := by
  intro k
  induction k with
  | zero =>
    intro sg _ _ _ hbp
    exact hbp
  | succ k ih =>
    intro sg hC hcp hz hbp
    rw [triesGo]
    by_cases hb : sg.1.best = 0
    · rw [if_pos hb]
      exact hbp
    rw [if_neg hb]
    apply ih
    · exact ((try_point_scoreFrame _ _).corpus).trans hC
    · intro c hc
      apply hcp
      rwa [(try_point_scoreFrame _ _).corpus_points] at hc
    · exact hz
    · show inB C (try_point sg.1 _).best_point
      rcases try_point_best_point sg.1
          (sg.1.corpus_points.getD (pcgRange sg.2 0 ((sg.1.corpus_points.length : Int) - 1)).1.toNat
            ⟨0, 0⟩) with h2 | h2 <;> rw [h2]
      · rcases getD_mem_or sg.1.corpus_points
            (pcgRange sg.2 0 ((sg.1.corpus_points.length : Int) - 1)).1.toNat ⟨0, 0⟩ with hm | hm
        · exact hcp _ hm
        · rw [hm]
          exact hz
      · exact hbp

lemma scorePhase_best_point (p : Parameters) (i : Int) (sg : Resynth_state × Pcg) (C : Image)
    (hC : sg.1.corpus = C) (hcp : ∀ c ∈ sg.1.corpus_points, inB C c)
    (hz : inB C (⟨0, 0⟩ : Coord)) (hbp : inB C sg.1.best_point) :
    inB C (scorePhase p i sg).1.best_point := by
  unfold scorePhase
  apply triesGo_best_point C
  · exact ((coherenceGo_scoreFrame i _ _).corpus).trans hC
  · intro c hc
    apply hcp
    rwa [(coherenceGo_scoreFrame i _ _).corpus_points] at hc
  · exact hz
  · exact coherenceGo_best_point i C _ _ hC hbp

lemma stepPre_best_point (p : Parameters) (i : Nat) (sg : Resynth_state × Pcg) (C : Image)
    (hC : sg.1.corpus = C) (hcp : ∀ c ∈ sg.1.corpus_points, inB C c)
    (hz : inB C (⟨0, 0⟩ : Coord)) (hbp : inB C sg.1.best_point) :
    inB C (stepPre p i sg).1.best_point := by
  unfold stepPre
  exact scorePhase_best_point p i _ C hC hcp hz hbp

lemma scorePhase_scoreFrame (p : Parameters) (i : Int) (sg : Resynth_state × Pcg) :
    scoreFrame sg.1 (scorePhase p i sg).1 := by
  unfold scorePhase
  refine scoreFrame_trans (scoreFrame_trans ?_ (coherenceGo_scoreFrame _ _ _))
    (triesGo_scoreFrame _ _)
  exact ⟨rfl, rfl, rfl, rfl, rfl, rfl, rfl, rfl, rfl, rfl, rfl, rfl, rfl⟩

lemma stepPre_frame (p : Parameters) (i : Nat) (sg : Resynth_state × Pcg) :
    (stepPre p i sg).1.corpus = sg.1.corpus ∧
    (stepPre p i sg).1.corpus_points = sg.1.corpus_points ∧
    (stepPre p i sg).1.data = sg.1.data ∧
    (stepPre p i sg).1.data_points = sg.1.data_points ∧
    (stepPre p i sg).1.input_bytes = sg.1.input_bytes ∧
    (stepPre p i sg).1.tried = sg.1.tried ∧
    (stepPre p i sg).1.corpus_array = sg.1.corpus_array ∧
    (stepPre p i sg).1.diff_table = sg.1.diff_table ∧
    (stepPre p i sg).1.sorted_offsets = sg.1.sorted_offsets ∧
    (stepPre p i sg).1.data_array = sg.1.data_array := by
  unfold stepPre
  have h := scorePhase_scoreFrame p (i : Int)
    (collectPhase p (setStatusAt sg.1 (sg.1.data_points.getD i ⟨0, 0⟩)
      (fun st => { st with has_value := true })) (sg.1.data_points.getD i ⟨0, 0⟩), sg.2)
  exact ⟨h.corpus, h.corpus_points, h.data, h.data_points, h.input_bytes, h.tried,
    h.corpus_array, h.diff_table, h.sorted_offsets, h.data_array⟩

lemma synthStep_frame (p : Parameters) (i : Nat) (sg : Resynth_state × Pcg) :
    (synthStep p i sg).1.corpus = sg.1.corpus ∧
    (synthStep p i sg).1.corpus_points = sg.1.corpus_points ∧
    (synthStep p i sg).1.data = sg.1.data ∧
    (synthStep p i sg).1.data_points = sg.1.data_points ∧
    (synthStep p i sg).1.input_bytes = sg.1.input_bytes ∧
    (synthStep p i sg).1.tried = sg.1.tried ∧
    (synthStep p i sg).1.corpus_array = sg.1.corpus_array ∧
    (synthStep p i sg).1.diff_table = sg.1.diff_table ∧
    (synthStep p i sg).1.sorted_offsets = sg.1.sorted_offsets := by
  unfold synthStep
  have h := stepPre_frame p i sg
  exact ⟨h.1, h.2.1, h.2.2.1, h.2.2.2.1, h.2.2.2.2.1, h.2.2.2.2.2.1,
    h.2.2.2.2.2.2.1, h.2.2.2.2.2.2.2.1, h.2.2.2.2.2.2.2.2.1⟩

lemma runIdx_frame (p : Parameters) :
    ∀ (l : List Nat) (sg : Resynth_state × Pcg),
      (runIdx p l sg).1.corpus = sg.1.corpus ∧
      (runIdx p l sg).1.corpus_points = sg.1.corpus_points ∧
      (runIdx p l sg).1.data = sg.1.data ∧
      (runIdx p l sg).1.data_points = sg.1.data_points ∧
      (runIdx p l sg).1.input_bytes = sg.1.input_bytes ∧
      (runIdx p l sg).1.tried = sg.1.tried ∧
      (runIdx p l sg).1.corpus_array = sg.1.corpus_array ∧
      (runIdx p l sg).1.diff_table = sg.1.diff_table ∧
      (runIdx p l sg).1.sorted_offsets = sg.1.sorted_offsets := by
  intro l
  induction l with
  | nil =>
    intro sg
    exact ⟨rfl, rfl, rfl, rfl, rfl, rfl, rfl, rfl, rfl⟩
  | cons j rest ih =>
    intro sg
    rw [runIdx]
    have h1 := ih (synthStep p j sg)
    have h2 := synthStep_frame p j sg
    exact ⟨h1.1.trans h2.1, (h1.2.1).trans h2.2.1, (h1.2.2.1).trans h2.2.2.1,
      (h1.2.2.2.1).trans h2.2.2.2.1, (h1.2.2.2.2.1).trans h2.2.2.2.2.1,
      (h1.2.2.2.2.2.1).trans h2.2.2.2.2.2.1,
      (h1.2.2.2.2.2.2.1).trans h2.2.2.2.2.2.2.1,
      (h1.2.2.2.2.2.2.2.1).trans h2.2.2.2.2.2.2.2.1,
      (h1.2.2.2.2.2.2.2.2).trans h2.2.2.2.2.2.2.2.2⟩

/-! ## Tried-grid entry tracking -/

lemma coherenceGo_tried_mem (i : Int) :
    ∀ (ns : List Neighbor) (s : Resynth_state) (t : Int),
      t ∈ (coherenceGo i ns s).tried_array → t ∈ s.tried_array ∨ t = i := by
  intro ns
  induction ns with
  | nil =>
    intro s t ht
    exact Or.inl ht
  | cons nb rest ih =>
    intro s t ht
    rw [coherenceGo] at ht
    by_cases hb : s.best = 0
    · rw [if_pos hb] at ht
      exact Or.inl ht
    rw [if_neg hb] at ht
    by_cases hs : (statusAt s nb.spoint).has_source
    · rw [if_pos hs] at ht
      by_cases hoob : (coord_sub (statusAt s nb.spoint).source nb.offset).x < 0 ∨
          (coord_sub (statusAt s nb.spoint).source nb.offset).y < 0 ∨
          s.corpus.width ≤ (coord_sub (statusAt s nb.spoint).source nb.offset).x ∨
          s.corpus.height ≤ (coord_sub (statusAt s nb.spoint).source nb.offset).y
      · rw [if_pos hoob] at ht
        exact ih s t ht
      rw [if_neg hoob] at ht
      by_cases htr : triedGet s.tried_array s.tried
          (coord_sub (statusAt s nb.spoint).source nb.offset) = i
      · rw [if_pos htr] at ht
        exact ih s t ht
      · rw [if_neg htr] at ht
        rcases ih _ t ht with h2 | h2
        · have h3 : t ∈ (try_point s (coord_sub (statusAt s nb.spoint).source
              nb.offset)).tried_array ∨ t = i := List.mem_or_eq_of_mem_set h2
          rcases h3 with h3 | h3
          · rw [try_point_tried_array] at h3
            exact Or.inl h3
          · exact Or.inr h3
        · exact Or.inr h2
    · rw [if_neg hs] at ht
      exact ih s t ht

lemma stepPre_tried_mem (p : Parameters) (i : Nat) (sg : Resynth_state × Pcg) (t : Int)
    (ht : t ∈ (stepPre p i sg).1.tried_array) : t ∈ sg.1.tried_array ∨ t = (i : Int) := by
  unfold stepPre scorePhase at ht
  rw [triesGo_tried_array] at ht
  have h2 := coherenceGo_tried_mem (i : Int) _ _ t ht
  exact h2

lemma synthStep_tried_mem (p : Parameters) (i : Nat) (sg : Resynth_state × Pcg) (t : Int)
    (ht : t ∈ (synthStep p i sg).1.tried_array) : t ∈ sg.1.tried_array ∨ t = (i : Int) := by
  unfold synthStep at ht
  exact stepPre_tried_mem p i sg t ht

lemma runIdx_tried_mem (p : Parameters) :
    ∀ (l : List Nat) (sg : Resynth_state × Pcg) (t : Int),
      t ∈ (runIdx p l sg).1.tried_array →
      t ∈ sg.1.tried_array ∨ ∃ j ∈ l, t = (j : Int) := by
  intro l
  induction l with
  | nil =>
    intro sg t ht
    exact Or.inl ht
  | cons j rest ih =>
    intro sg t ht
    rw [runIdx] at ht
    rcases ih _ t ht with h | h
    · rcases synthStep_tried_mem p j sg t h with h2 | h2
      · exact Or.inl h2
      · exact Or.inr ⟨j, List.mem_cons_self j rest, h2⟩
    · obtain ⟨j2, hj2, ht2⟩ := h
      exact Or.inr ⟨j2, List.mem_cons_of_mem _ hj2, ht2⟩

/-- Claim C8 (amended): with a non-empty corpus and output, every tried
grid entry equals the sentinel -1 before the first iteration; and since
the loop index descends from len-1 to 0, after iteration i every entry is
either -1 or a loop index in [i, len-1] — in particular no entry is below
-1 or at least len, but entries larger than i from earlier (higher-index)
iterations do persist, contrary to the claim as stated. -/
theorem claim_C8_tried_grid (s : Resynth_state) (p : Parameters) (g : Pcg)
    (hc : (rowMajor s.corpus.width s.corpus.height).length ≠ 0)
    (hd : (rowMajor s.data.width s.data.height).length ≠ 0) :
    (∀ t ∈ (resynth__init p (s, g)).1.tried_array, t = -1) ∧
    (∀ i : Nat,
      ∀ t ∈ (runIdx p
          (List.range' i ((resynth__init p (s, g)).1.data_points.length - i)).reverse
          (resynth__init p (s, g))).1.tried_array,
        t = -1 ∨ ((i : Int) ≤ t ∧
          t < ((resynth__init p (s, g)).1.data_points.length : Int))) := by
  have hinit : ∀ t ∈ (resynth__init p (s, g)).1.tried_array, t = -1 := by
    rw [resynth__init_eq_nonempty s p g hc hd]
    intro t ht
    exact List.eq_of_mem_replicate ht
  refine ⟨hinit, ?_⟩
  intro i t ht
  rcases runIdx_tried_mem p _ _ t ht with h | h
  · exact Or.inl (hinit t h)
  · obtain ⟨j, hj, rfl⟩ := h
    rw [List.mem_reverse, List.mem_range'_1] at hj
    right
    constructor
    · exact_mod_cast hj.1
    · have := hj.2
      omega

/-- Witness for C8 (amended) at a concrete instance. -/
theorem claim_C8_tried_grid_witness :
    (∀ t ∈ (resynth__init ⟨false, false, 0, 1, 1, 0, 4⟩
        (resynth_state_create_from_memory [1, 2] 1 2 1 1, pcgSeed 4)).1.tried_array,
      t = -1) ∧
    (∀ i : Nat,
      ∀ t ∈ (runIdx ⟨false, false, 0, 1, 1, 0, 4⟩
          (List.range' i ((resynth__init ⟨false, false, 0, 1, 1, 0, 4⟩
            (resynth_state_create_from_memory [1, 2] 1 2 1 1,
              pcgSeed 4)).1.data_points.length - i)).reverse
          (resynth__init ⟨false, false, 0, 1, 1, 0, 4⟩
            (resynth_state_create_from_memory [1, 2] 1 2 1 1, pcgSeed 4))).1.tried_array,
        t = -1 ∨ ((i : Int) ≤ t ∧
          t < ((resynth__init ⟨false, false, 0, 1, 1, 0, 4⟩
            (resynth_state_create_from_memory [1, 2] 1 2 1 1,
              pcgSeed 4)).1.data_points.length : Int))) :=
  claim_C8_tried_grid (resynth_state_create_from_memory [1, 2] 1 2 1 1)
    ⟨false, false, 0, 1, 1, 0, 4⟩ (pcgSeed 4) (by decide) (by decide)

/-- Counterexample to C8 as stated: 1x3 corpus, 1x3 output, neighbors = 2,
tries = 1, magic = 0, seed 2.  The run has 3 iterations with descending
indices 2, 1, 0; after iteration 0 (the full run, here written as the loop
over indices [2, 1, 0]) the tried entry at flat index 2 still holds the
value 1 written during iteration 1 — an entry greater than the iteration
index 0, which the claim says cannot remain. -/
theorem claim_C8_counterexample :
    (runIdx (⟨false, false, 0, 2, 1, 0, 2⟩ : Parameters)
      (List.range' 0 ((resynth__init (⟨false, false, 0, 2, 1, 0, 2⟩ : Parameters)
        (resynth_state_create_from_memory [10, 200, 90] 1 3 1 1,
          pcgSeed 2)).1.data_points.length - 0)).reverse
      (resynth__init (⟨false, false, 0, 2, 1, 0, 2⟩ : Parameters)
        (resynth_state_create_from_memory [10, 200, 90] 1 3 1 1,
          pcgSeed 2))).1.tried_array.getD 2 0 = 1 ∧
    ¬ ((1 : Int) ≤ 0) ∧
    (resynth__init (⟨false, false, 0, 2, 1, 0, 2⟩ : Parameters)
      (resynth_state_create_from_memory [10, 200, 90] 1 3 1 1,
        pcgSeed 2)).1.data_points.length = 3 := by
  refine ⟨?_, ?_, ?_⟩
  · decide
  · decide
  · decide

/-! ## Stale best_point analysis (no candidate scored keeps best = INT_MAX) -/

lemma tryPointGo_some_lt (s : Resynth_state) (pt : Coord) :
    ∀ (ns : List Neighbor) (i : Nat) (acc r : Int),
      tryPointGo s pt ns i acc = some r → r < s.best ∨ (ns = [] ∧ r = acc) := by
  intro ns
  induction ns with
  | nil =>
    intro i acc r h
    rw [tryPointGo] at h
    exact Or.inr ⟨rfl, (Option.some.inj h).symm⟩
  | cons nb rest ih =>
    intro i acc r h
    rw [tryPointGo] at h
    by_cases hge : s.best ≤ acc + neighborDiff s pt i nb
    · rw [if_pos hge] at h
      exact absurd h (by simp)
    · rw [if_neg hge] at h
      rcases ih (i + 1) _ r h with h2 | h2
      · exact Or.inl h2
      · left
        rw [h2.2]
        omega

lemma try_point_stale (s : Resynth_state) (pt : Coord) (hle : s.best ≤ INT_MAX) :
    ((try_point s pt).best = INT_MAX →
      (try_point s pt).best_point = s.best_point ∧ s.best = INT_MAX) ∧
    (try_point s pt).best ≤ INT_MAX := by
  have hIM : INT_MAX = 2147483647 := rfl
  unfold try_point
  cases h : tryPointGo s pt s.neighbors 0 0 with
  | none => exact ⟨fun hb => ⟨rfl, hb⟩, hle⟩
  | some r =>
    dsimp only
    have hr := tryPointGo_some_lt s pt s.neighbors 0 0 r h
    constructor
    · intro hb
      exfalso
      rcases hr with hr | hr
      · omega
      · omega
    · rcases hr with hr | hr
      · omega
      · omega

lemma coherenceGo_stale (i : Int) (bp : Coord) :
    ∀ (ns : List Neighbor) (s : Resynth_state),
      (s.best = INT_MAX → s.best_point = bp) → s.best ≤ INT_MAX →
      ((coherenceGo i ns s).best = INT_MAX → (coherenceGo i ns s).best_point = bp) ∧
      (coherenceGo i ns s).best ≤ INT_MAX := by
  intro ns
  induction ns with
  | nil =>
    intro s hq hle
    exact ⟨hq, hle⟩
  | cons nb rest ih =>
    intro s hq hle
    rw [coherenceGo]
    by_cases hb : s.best = 0
    · rw [if_pos hb]
      exact ⟨hq, hle⟩
    rw [if_neg hb]
    by_cases hs : (statusAt s nb.spoint).has_source
    · rw [if_pos hs]
      by_cases hoob : (coord_sub (statusAt s nb.spoint).source nb.offset).x < 0 ∨
          (coord_sub (statusAt s nb.spoint).source nb.offset).y < 0 ∨
          s.corpus.width ≤ (coord_sub (statusAt s nb.spoint).source nb.offset).x ∨
          s.corpus.height ≤ (coord_sub (statusAt s nb.spoint).source nb.offset).y
      · rw [if_pos hoob]
        exact ih s hq hle
      rw [if_neg hoob]
      by_cases htr : triedGet s.tried_array s.tried
          (coord_sub (statusAt s nb.spoint).source nb.offset) = i
      · rw [if_pos htr]
        exact ih s hq hle
      · rw [if_neg htr]
        have hst := try_point_stale s
          (coord_sub (statusAt s nb.spoint).source nb.offset) hle
        apply ih
        · intro hbx
          exact ((hst.1 hbx).1).trans (hq (hst.1 hbx).2)
        · exact hst.2
    · rw [if_neg hs]
      exact ih s hq hle

lemma triesGo_stale (bp : Coord) :
    ∀ (k : Nat) (sg : Resynth_state × Pcg),
      (sg.1.best = INT_MAX → sg.1.best_point = bp) → sg.1.best ≤ INT_MAX →
      ((triesGo k sg).1.best = INT_MAX → (triesGo k sg).1.best_point = bp) ∧
      (triesGo k sg).1.best ≤ INT_MAX := by
  intro k
  induction k with
  | zero =>
    intro sg hq hle
    exact ⟨hq, hle⟩
  | succ k ih =>
    intro sg hq hle
    rw [triesGo]
    by_cases hb : sg.1.best = 0
    · rw [if_pos hb]
      exact ⟨hq, hle⟩
    rw [if_neg hb]
    have hst := try_point_stale sg.1
      (sg.1.corpus_points.getD
        (pcgRange sg.2 0 ((sg.1.corpus_points.length : Int) - 1)).1.toNat ⟨0, 0⟩) hle
    apply ih
    · intro hbx
      exact ((hst.1 hbx).1).trans (hq (hst.1 hbx).2)
    · exact hst.2

lemma stepPre_stale (p : Parameters) (i : Nat) (sg : Resynth_state × Pcg) :
    (stepPre p i sg).1.best = INT_MAX →
    (stepPre p i sg).1.best_point = sg.1.best_point := by
  unfold stepPre scorePhase
  intro hb
  have h1 := coherenceGo_stale (i : Int) sg.1.best_point
    ({ collectPhase p (setStatusAt sg.1 (sg.1.data_points.getD i ⟨0, 0⟩)
        (fun st => { st with has_value := true })) (sg.1.data_points.getD i ⟨0, 0⟩) with
      best := INT_MAX } : Resynth_state).neighbors
    ({ collectPhase p (setStatusAt sg.1 (sg.1.data_points.getD i ⟨0, 0⟩)
        (fun st => { st with has_value := true })) (sg.1.data_points.getD i ⟨0, 0⟩) with
      best := INT_MAX } : Resynth_state)
    (fun _ => rfl) (le_refl INT_MAX)
  have h2 := triesGo_stale sg.1.best_point p.tries.toNat
    (coherenceGo (i : Int)
      ({ collectPhase p (setStatusAt sg.1 (sg.1.data_points.getD i ⟨0, 0⟩)
          (fun st => { st with has_value := true })) (sg.1.data_points.getD i ⟨0, 0⟩) with
        best := INT_MAX } : Resynth_state).neighbors
      ({ collectPhase p (setStatusAt sg.1 (sg.1.data_points.getD i ⟨0, 0⟩)
          (fun st => { st with has_value := true })) (sg.1.data_points.getD i ⟨0, 0⟩) with
        best := INT_MAX } : Resynth_state), sg.2) h1.1 h1.2
  exact h2.1 hb

/-- Claim C10: for every run on a non-empty corpus, best_point stays
inside corpus bounds at every commit — including iterations where no
candidate is scored.  The state after any sequence of loop iterations
keeps best_point in bounds, as does every pre-commit (scored) state, so
the corpus read in the commit step is always in bounds; and an iteration
whose scoring leaves best = INT_MAX (nothing scored) commits the stale
best_point of the previous iteration unchanged. -/
theorem claim_C10_best_point_in_corpus (s : Resynth_state) (p : Parameters) (g : Pcg)
    (hw : 0 < s.corpus.width) (hh : 0 < s.corpus.height)
    (hd : (rowMajor s.data.width s.data.height).length ≠ 0)
    (hbp0 : inB s.corpus s.best_point) :
    ∀ l : List Nat,
      inB s.corpus (runIdx p l (resynth__init p (s, g))).1.best_point ∧
      (runIdx p l (resynth__init p (s, g))).1.corpus = s.corpus ∧
      ∀ i : Nat,
        inB s.corpus (stepPre p i (runIdx p l (resynth__init p (s, g)))).1.best_point ∧
        ((stepPre p i (runIdx p l (resynth__init p (s, g)))).1.best = INT_MAX →
          (stepPre p i (runIdx p l (resynth__init p (s, g)))).1.best_point =
            (runIdx p l (resynth__init p (s, g))).1.best_point) := by
  have hc : (rowMajor s.corpus.width s.corpus.height).length ≠ 0 := by
    rw [rowMajor_length]
    exact Nat.mul_ne_zero (by omega) (by omega)
  have hinit := resynth__init_eq_nonempty s p g hc hd
  have hz : inB s.corpus (⟨0, 0⟩ : Coord) := ⟨le_refl 0, hw, le_refl 0, hh⟩
  have hstep : ∀ (j : Nat) (sg : Resynth_state × Pcg),
      sg.1.corpus = s.corpus →
      sg.1.corpus_points = rowMajor s.corpus.width s.corpus.height →
      inB s.corpus sg.1.best_point →
      ((synthStep p j sg).1.corpus = s.corpus ∧
       (synthStep p j sg).1.corpus_points = rowMajor s.corpus.width s.corpus.height ∧
       inB s.corpus (synthStep p j sg).1.best_point) := by
    intro j sg h1 h2 h3
    have hf := synthStep_frame p j sg
    refine ⟨hf.1.trans h1, (hf.2.1).trans h2, ?_⟩
    have hb := stepPre_best_point p j sg s.corpus h1
      (fun c hcm => by rw [h2] at hcm; exact (rowMajor_mem _ _ _).mp hcm) hz h3
    exact hb
  have hrun : ∀ (l : List Nat) (sg : Resynth_state × Pcg),
      sg.1.corpus = s.corpus →
      sg.1.corpus_points = rowMajor s.corpus.width s.corpus.height →
      inB s.corpus sg.1.best_point →
      ((runIdx p l sg).1.corpus = s.corpus ∧
       (runIdx p l sg).1.corpus_points = rowMajor s.corpus.width s.corpus.height ∧
       inB s.corpus (runIdx p l sg).1.best_point) := by
    intro l
    induction l with
    | nil =>
      intro sg h1 h2 h3
      exact ⟨h1, h2, h3⟩
    | cons j rest ih =>
      intro sg h1 h2 h3
      rw [runIdx]
      obtain ⟨a, b, c⟩ := hstep j sg h1 h2 h3
      exact ih _ a b c
  have hI1 : (resynth__init p (s, g)).1.corpus = s.corpus := by rw [hinit]
  have hI2 : (resynth__init p (s, g)).1.corpus_points =
      rowMajor s.corpus.width s.corpus.height := by rw [hinit]
  have hI3 : inB s.corpus (resynth__init p (s, g)).1.best_point := by
    rw [hinit]
    exact hbp0
  intro l
  obtain ⟨h1, h2, h3⟩ := hrun l _ hI1 hI2 hI3
  refine ⟨h3, h1, ?_⟩
  intro i
  constructor
  · exact stepPre_best_point p i _ s.corpus h1
      (fun c hcm => by rw [h2] at hcm; exact (rowMajor_mem _ _ _).mp hcm) hz h3
  · exact stepPre_stale p i _

/-- Witness for C10 at a concrete instance (1x1 corpus, 2x1 output, after
the iteration at index 1, pre-commit state of iteration 0). -/
theorem claim_C10_best_point_in_corpus_witness :
    inB (resynth_state_create_from_memory [7] 1 1 1 2).corpus
      (runIdx ⟨false, false, 0, 1, 1, 0, 1⟩ [1]
        (resynth__init ⟨false, false, 0, 1, 1, 0, 1⟩
          (resynth_state_create_from_memory [7] 1 1 1 2, pcgSeed 1))).1.best_point ∧
    inB (resynth_state_create_from_memory [7] 1 1 1 2).corpus
      (stepPre ⟨false, false, 0, 1, 1, 0, 1⟩ 0
        (runIdx ⟨false, false, 0, 1, 1, 0, 1⟩ [1]
          (resynth__init ⟨false, false, 0, 1, 1, 0, 1⟩
            (resynth_state_create_from_memory [7] 1 1 1 2, pcgSeed 1)))).1.best_point ∧
    ((stepPre ⟨false, false, 0, 1, 1, 0, 1⟩ 0
        (runIdx ⟨false, false, 0, 1, 1, 0, 1⟩ [1]
          (resynth__init ⟨false, false, 0, 1, 1, 0, 1⟩
            (resynth_state_create_from_memory [7] 1 1 1 2, pcgSeed 1)))).1.best = INT_MAX →
      (stepPre ⟨false, false, 0, 1, 1, 0, 1⟩ 0
        (runIdx ⟨false, false, 0, 1, 1, 0, 1⟩ [1]
          (resynth__init ⟨false, false, 0, 1, 1, 0, 1⟩
            (resynth_state_create_from_memory [7] 1 1 1 2, pcgSeed 1)))).1.best_point =
        (runIdx ⟨false, false, 0, 1, 1, 0, 1⟩ [1]
          (resynth__init ⟨false, false, 0, 1, 1, 0, 1⟩
            (resynth_state_create_from_memory [7] 1 1 1 2, pcgSeed 1))).1.best_point) := by
  have h := claim_C10_best_point_in_corpus
    (resynth_state_create_from_memory [7] 1 1 1 2) ⟨false, false, 0, 1, 1, 0, 1⟩
    (pcgSeed 1) (by decide) (by decide) (by decide)
    (by unfold inB; decide) [1]
  exact ⟨h.1, (h.2.2 0).1, (h.2.2 0).2⟩

/-! ## Flat-index arithmetic for pixel and status grids -/

lemma int_pack_inj {D a b k k2 : Int} (hD : 0 < D) (hk0 : 0 ≤ k) (hk : k < D)
    (hk20 : 0 ≤ k2) (hk2 : k2 < D) (h : a * D + k = b * D + k2) : a = b ∧ k = k2 := by
  have hab : a = b := by
    rcases lt_trichotomy a b with hlt | heq | hlt
    · exfalso
      have h2 : (a + 1) * D ≤ b * D :=
        mul_le_mul_of_nonneg_right (by omega) (le_of_lt hD)
      nlinarith
    · exact heq
    · exfalso
      have h2 : (b + 1) * D ≤ a * D :=
        mul_le_mul_of_nonneg_right (by omega) (le_of_lt hD)
      nlinarith
  subst hab
  exact ⟨rfl, by omega⟩

lemma imageIdx_nonneg (img : Image) (c : Coord) (hc : inB img c) (hD : 0 ≤ img.depth) :
    0 ≤ imageIdx img c := by
  unfold imageIdx
  obtain ⟨h1, h2, h3, h4⟩ := hc
  have hyw : 0 ≤ c.y * img.width := mul_nonneg h3 (by omega)
  exact mul_nonneg (by omega) hD

lemma imageIdx_add_depth_le (img : Image) (c : Coord) (hc : inB img c)
    (hD : 0 < img.depth) :
    imageIdx img c + img.depth ≤ img.width * img.height * img.depth := by
  unfold imageIdx
  obtain ⟨h1, h2, h3, h4⟩ := hc
  have hW : 0 < img.width := by omega
  have h6 : c.y * img.width ≤ (img.height - 1) * img.width :=
    mul_le_mul_of_nonneg_right (by omega) (by omega)
  have h5 : c.y * img.width + c.x + 1 ≤ img.width * img.height := by nlinarith
  nlinarith [mul_le_mul_of_nonneg_right h5 (le_of_lt hD)]

lemma pixIndex_inj (img : Image) {c c2 : Coord} {k k2 : Nat}
    (hc : inB img c) (hc2 : inB img c2) (hD : 0 < img.depth)
    (hk : (k : Int) < img.depth) (hk2 : (k2 : Int) < img.depth)
    (h : (imageIdx img c).toNat + k = (imageIdx img c2).toNat + k2) :
    c = c2 ∧ k = k2 := by
  have hn1 : ((imageIdx img c).toNat : Int) = imageIdx img c :=
    Int.toNat_of_nonneg (imageIdx_nonneg img c hc (le_of_lt hD))
  have hn2 : ((imageIdx img c2).toNat : Int) = imageIdx img c2 :=
    Int.toNat_of_nonneg (imageIdx_nonneg img c2 hc2 (le_of_lt hD))
  have hInt : imageIdx img c + (k : Int) = imageIdx img c2 + (k2 : Int) := by omega
  unfold imageIdx at hInt
  obtain ⟨hxy, hkk⟩ := int_pack_inj hD (by omega) hk (by omega) hk2 hInt
  have hW : 0 < img.width := by
    obtain ⟨a1, a2, _, _⟩ := hc
    omega
  obtain ⟨hy, hx⟩ := int_pack_inj hW hc.1 hc.2.1 hc2.1 hc2.2.1 hxy
  constructor
  · obtain ⟨cx, cy⟩ := c
    obtain ⟨cx2, cy2⟩ := c2
    simp only at hx hy
    rw [hx, hy]
  · exact_mod_cast hkk

lemma getD_set_at {α : Type} (l : List α) (i : Nat) (a : α) (t : Nat) (d : α)
    (hi : i < l.length) :
    (l.set i a).getD t d = if i = t then a else l.getD t d := by
  rw [List.getD_eq_getElem?_getD, List.getElem?_set, List.getD_eq_getElem?_getD]
  by_cases h : i = t
  · rw [if_pos h, if_pos h, if_pos hi]
    rfl
  · rw [if_neg h, if_neg h]

lemma getD_replicate_self {α : Type} (n : Nat) (a : α) (i : Nat) :
    (List.replicate n a).getD i a = a := by
  rw [List.getD_eq_getElem?_getD]
  rcases Nat.lt_or_ge i n with hlt | hge
  · rw [List.getElem?_replicate, if_pos hlt]
    rfl
  · rw [List.getElem?_replicate, if_neg (by omega)]
    rfl

lemma foldl_set_length (f : Nat → Nat) (base : Nat) :
    ∀ (ks : List Nat) (arr : List Nat),
      ((ks.foldl (fun a j => a.set (base + j) (f j)) arr).length = arr.length) := by
  intro ks
  induction ks with
  | nil =>
    intro arr
    rfl
  | cons k rest ih =>
    intro arr
    rw [List.foldl_cons, ih, List.length_set]

lemma foldl_set_getD (f : Nat → Nat) (base : Nat) :
    ∀ (ks : List Nat) (arr : List Nat) (t : Nat),
      (∀ j ∈ ks, base + j < arr.length) →
      ((ks.foldl (fun a j => a.set (base + j) (f j)) arr).getD t 0 =
        if ∃ j ∈ ks, base + j = t then f (t - base) else arr.getD t 0) := by
  intro ks
  induction ks with
  | nil =>
    intro arr t _
    simp
  | cons k rest ih =>
    intro arr t hlen
    rw [List.foldl_cons]
    rw [ih _ t (fun j hj => by
      rw [List.length_set]
      exact hlen j (List.mem_cons_of_mem _ hj))]
    by_cases hrest : ∃ j ∈ rest, base + j = t
    · obtain ⟨j0, hj0, hj0t⟩ := hrest
      rw [if_pos ⟨j0, hj0, hj0t⟩, if_pos ⟨j0, List.mem_cons_of_mem _ hj0, hj0t⟩]
    · rw [if_neg hrest]
      rw [getD_set_at _ _ _ _ _ (hlen k (List.mem_cons_self k rest))]
      by_cases hk : base + k = t
      · rw [if_pos hk, if_pos ⟨k, List.mem_cons_self k rest, hk⟩]
        congr 1
        omega
      · rw [if_neg hk, if_neg ?hnone]
        case hnone =>
          rintro ⟨j, hj, hjt⟩
          rcases List.mem_cons.mp hj with rfl | hj2
          · exact hk hjt
          · exact hrest ⟨j, hj2, hjt⟩

/-! ## Status and commit characterization -/

lemma statusAt_congr (s t : Resynth_state) (h1 : t.status = s.status)
    (h2 : t.status_array = s.status_array) (c : Coord) : statusAt t c = statusAt s c := by
  unfold statusAt cellGet
  rw [h1, h2]

lemma setStatusAt_statusAt (s : Resynth_state) (pos : Coord) (f : Status → Status)
    (hpos : inB s.status pos) (hdep : s.status.depth = 1)
    (hlen : (s.status_array.length : Int) = s.status.width * s.status.height) :
    ∀ c : Coord, inB s.status c →
      statusAt (setStatusAt s pos f) c =
        if c = pos then f (statusAt s pos) else statusAt s c := by
  intro c hc
  have hidx : (imageIdx s.status pos).toNat < s.status_array.length := by
    have h1 := imageIdx_add_depth_le s.status pos hpos (by omega)
    have h2 := imageIdx_nonneg s.status pos hpos (by omega)
    rw [hdep] at h1
    omega
  show cellGet (s.status_array.set (imageIdx s.status pos).toNat
      (f (statusAt s pos))) s.status c = _
  unfold cellGet
  rw [getD_set_at _ _ _ _ _ hidx]
  by_cases hcp : c = pos
  · subst hcp
    rw [if_pos rfl, if_pos rfl]
  · rw [if_neg ?hne, if_neg hcp]
    · rfl
    case hne =>
      intro heq
      have hpair := @pixIndex_inj s.status pos c 0 0 hpos hc
        (by omega) (by omega) (by omega) (by omega)
      exact hcp hpair.1.symm

lemma commitPhase_pix (s : Resynth_state) (pos : Coord)
    (hpos : inB s.data pos) (hD : 0 < s.data.depth)
    (hib : s.input_bytes = s.data.depth)
    (hlen : (s.data_array.length : Int) = s.data.width * s.data.height * s.data.depth) :
    ∀ (c : Coord) (k : Nat), inB s.data c → (k : Int) < s.data.depth →
      pixGet (commitPhase s pos).data_array s.data c k =
        if c = pos then pixGet s.corpus_array s.corpus s.best_point k
        else pixGet s.data_array s.data c k := by
  intro c k hc hk
  have hbound : ∀ j ∈ List.range s.input_bytes.toNat,
      (imageIdx s.data pos).toNat + j < s.data_array.length := by
    intro j hj
    rw [List.mem_range] at hj
    have h1 := imageIdx_add_depth_le s.data pos hpos hD
    have h2 := imageIdx_nonneg s.data pos hpos (le_of_lt hD)
    rw [hib] at hj
    omega
  show pixGet ((List.range s.input_bytes.toNat).foldl
      (fun a j => a.set ((imageIdx s.data pos).toNat + j)
        (pixGet s.corpus_array s.corpus s.best_point j)) s.data_array) s.data c k = _
  unfold pixGet
  rw [foldl_set_getD _ _ _ _ _ hbound]
  by_cases hcp : c = pos
  · subst hcp
    have hkmem : k ∈ List.range s.input_bytes.toNat := by
      rw [List.mem_range, hib]
      omega
    rw [if_pos ⟨k, hkmem, rfl⟩, if_pos rfl]
    congr 1
    omega
  · rw [if_neg ?hne, if_neg hcp]
    case hne =>
      rintro ⟨j, hj, hjt⟩
      rw [List.mem_range, hib] at hj
      have hjd : (j : Int) < s.data.depth := by omega
      have hpair := pixIndex_inj s.data hpos hc hD hjd hk hjt
      exact hcp hpair.1.symm

lemma commitPhase_statusAt (s : Resynth_state) (pos : Coord)
    (hpos : inB s.status pos) (hdep : s.status.depth = 1)
    (hlen : (s.status_array.length : Int) = s.status.width * s.status.height) :
    ∀ c : Coord, inB s.status c →
      statusAt (commitPhase s pos) c =
        if c = pos then
          { statusAt s pos with has_source := true, source := s.best_point }
        else statusAt s c := by
  intro c hc
  have h := setStatusAt_statusAt
    ({ s with data_array := (List.foldl
        (fun a j => a.set ((imageIdx s.data pos).toNat + j)
          (pixGet s.corpus_array s.corpus s.best_point j)) s.data_array
        (List.range s.input_bytes.toNat)) } : Resynth_state)
    pos (fun st => { st with has_source := true, source := s.best_point })
    hpos hdep hlen c hc
  exact h

lemma stepPre_status_array (p : Parameters) (i : Nat) (sg : Resynth_state × Pcg) :
    (stepPre p i sg).1.status_array =
      (setStatusAt sg.1 (sg.1.data_points.getD i ⟨0, 0⟩)
        (fun st => { st with has_value := true })).status_array := by
  unfold stepPre
  have h := scorePhase_scoreFrame p (i : Int)
    (collectPhase p (setStatusAt sg.1 (sg.1.data_points.getD i ⟨0, 0⟩)
      (fun st => { st with has_value := true })) (sg.1.data_points.getD i ⟨0, 0⟩), sg.2)
  exact h.status_array

lemma stepPre_status_img (p : Parameters) (i : Nat) (sg : Resynth_state × Pcg) :
    (stepPre p i sg).1.status = sg.1.status := by
  unfold stepPre
  have h := scorePhase_scoreFrame p (i : Int)
    (collectPhase p (setStatusAt sg.1 (sg.1.data_points.getD i ⟨0, 0⟩)
      (fun st => { st with has_value := true })) (sg.1.data_points.getD i ⟨0, 0⟩), sg.2)
  exact h.status

/-! ## Output value closure invariant -/

/-- Structural well-formedness of the state, maintained by every loop
iteration. -/
def StateWF (s : Resynth_state) : Prop :=
  0 < s.corpus.width ∧ 0 < s.corpus.height ∧
  0 < s.data.width ∧ 0 < s.data.height ∧ 0 < s.data.depth ∧
  s.input_bytes = s.data.depth ∧
  s.status = (⟨s.data.width, s.data.height, 1⟩ : Image) ∧
  ((s.data_array.length : Int) = s.data.width * s.data.height * s.data.depth) ∧
  ((s.status_array.length : Int) = s.data.width * s.data.height) ∧
  (∀ c ∈ s.data_points, inB s.data c) ∧
  (∀ c ∈ s.corpus_points, inB s.corpus c) ∧
  inB s.corpus s.best_point

/-- Closure: every output pixel that already has a value is a bit-exact
copy of some corpus pixel. -/
def Clos (s : Resynth_state) : Prop :=
  ∀ c : Coord, inB s.data c → (statusAt s c).has_value = true →
    ∃ q : Coord, inB s.corpus q ∧ ∀ k : Nat, (k : Int) < s.input_bytes →
      pixGet s.data_array s.data c k = pixGet s.corpus_array s.corpus q k

lemma StateWF_congr (s t : Resynth_state)
    (h1 : t.corpus = s.corpus) (h2 : t.data = s.data) (h3 : t.input_bytes = s.input_bytes)
    (h4 : t.status = s.status) (h5 : t.data_array.length = s.data_array.length)
    (h6 : t.status_array.length = s.status_array.length)
    (h7 : t.data_points = s.data_points) (h8 : t.corpus_points = s.corpus_points)
    (h9 : inB s.corpus t.best_point)
    (hwf : StateWF s) : StateWF t := by
  obtain ⟨w1, w2, w3, w4, w5, w6, w7, w8, w9, w10, w11, w12⟩ := hwf
  refine ⟨?_, ?_, ?_, ?_, ?_, ?_, ?_, ?_, ?_, ?_, ?_, ?_⟩
  · rw [h1]; exact w1
  · rw [h1]; exact w2
  · rw [h2]; exact w3
  · rw [h2]; exact w4
  · rw [h2]; exact w5
  · rw [h3, h2]; exact w6
  · rw [h4, h2]; exact w7
  · rw [h5, h2]; exact w8
  · rw [h6, h2]; exact w9
  · intro c hc
    rw [h2]
    exact w10 c (h7 ▸ hc)
  · intro c hc
    rw [h1]
    exact w11 c (h8 ▸ hc)
  · rw [h1]; exact h9

lemma commitPhase_data_array_length (s : Resynth_state) (pos : Coord) :
    (commitPhase s pos).data_array.length = s.data_array.length := by
  show ((List.range s.input_bytes.toNat).foldl
      (fun a j => a.set ((imageIdx s.data pos).toNat + j)
        (pixGet s.corpus_array s.corpus s.best_point j)) s.data_array).length = _
  exact foldl_set_length _ _ _ _

lemma commitPhase_status_array_length (s : Resynth_state) (pos : Coord) :
    (commitPhase s pos).status_array.length = s.status_array.length := by
  unfold commitPhase setStatusAt
  exact List.length_set _ _ _

lemma synthStep_status_img (p : Parameters) (i : Nat) (sg : Resynth_state × Pcg) :
    (synthStep p i sg).1.status = sg.1.status := by
  unfold synthStep
  exact stepPre_status_img p i sg

lemma synthStep_data_array_length (p : Parameters) (i : Nat) (sg : Resynth_state × Pcg) :
    (synthStep p i sg).1.data_array.length = sg.1.data_array.length := by
  have h1 : (synthStep p i sg).1.data_array.length =
      (stepPre p i sg).1.data_array.length := commitPhase_data_array_length _ _
  rw [h1, (stepPre_frame p i sg).2.2.2.2.2.2.2.2.2]

lemma synthStep_status_array_length (p : Parameters) (i : Nat) (sg : Resynth_state × Pcg) :
    (synthStep p i sg).1.status_array.length = sg.1.status_array.length := by
  have h1 : (synthStep p i sg).1.status_array.length =
      (stepPre p i sg).1.status_array.length := commitPhase_status_array_length _ _
  rw [h1, stepPre_status_array p i sg]
  exact List.length_set _ _ _

lemma synthStep_eq_commit (p : Parameters) (i : Nat) (sg : Resynth_state × Pcg) :
    (synthStep p i sg).1 =
      commitPhase (stepPre p i sg).1 ((stepPre p i sg).1.data_points.getD i ⟨0, 0⟩) := rfl

lemma commitPhase_data (s : Resynth_state) (pos : Coord) :
    (commitPhase s pos).data = s.data := rfl

lemma commitPhase_corpus (s : Resynth_state) (pos : Coord) :
    (commitPhase s pos).corpus = s.corpus := rfl

lemma commitPhase_corpus_array (s : Resynth_state) (pos : Coord) :
    (commitPhase s pos).corpus_array = s.corpus_array := rfl

lemma commitPhase_best_point (s : Resynth_state) (pos : Coord) :
    (commitPhase s pos).best_point = s.best_point := rfl

lemma synthStep_clos (p : Parameters) (i : Nat) (sg : Resynth_state × Pcg)
    (hwf : StateWF sg.1) (hclos : Clos sg.1) :
    StateWF (synthStep p i sg).1 ∧ Clos (synthStep p i sg).1 ∧
    (∀ c : Coord, inB sg.1.data c → (statusAt sg.1 c).has_value = true →
      (statusAt (synthStep p i sg).1 c).has_value = true) ∧
    (statusAt (synthStep p i sg).1 (sg.1.data_points.getD i ⟨0, 0⟩)).has_value = true := by
  obtain ⟨w1, w2, w3, w4, w5, w6, w7, w8, w9, w10, w11, w12⟩ := hwf
  have hz : inB sg.1.corpus (⟨0, 0⟩ : Coord) := ⟨le_refl 0, w1, le_refl 0, w2⟩
  have hzD : inB sg.1.data (⟨0, 0⟩ : Coord) := ⟨le_refl 0, w3, le_refl 0, w4⟩
  have hposD : inB sg.1.data (sg.1.data_points.getD i ⟨0, 0⟩) := by
    rcases getD_mem_or sg.1.data_points i ⟨0, 0⟩ with hm | hm
    · exact w10 _ hm
    · rw [hm]; exact hzD
  have hSD : ∀ c : Coord, inB sg.1.data c → inB sg.1.status c := by
    intro c hc
    rw [w7]
    exact hc
  have hdepS : sg.1.status.depth = 1 := by rw [w7]
  have hlenS : (sg.1.status_array.length : Int) = sg.1.status.width * sg.1.status.height := by
    rw [w7]
    exact w9
  have hPre := stepPre_frame p i sg
  have hPreSA := stepPre_status_array p i sg
  have hPreSI := stepPre_status_img p i sg
  have hPreBP : inB sg.1.corpus (stepPre p i sg).1.best_point :=
    stepPre_best_point p i sg sg.1.corpus rfl w11 hz w12
  have hpos' : (stepPre p i sg).1.data_points.getD i ⟨0, 0⟩ =
      sg.1.data_points.getD i ⟨0, 0⟩ := by
    rw [hPre.2.2.2.1]
  have hS1 : ∀ c : Coord, inB sg.1.data c →
      statusAt (stepPre p i sg).1 c =
        if c = sg.1.data_points.getD i ⟨0, 0⟩
        then { statusAt sg.1 (sg.1.data_points.getD i ⟨0, 0⟩) with has_value := true }
        else statusAt sg.1 c := by
    intro c hc
    have h1 := statusAt_congr
      (setStatusAt sg.1 (sg.1.data_points.getD i ⟨0, 0⟩)
        (fun st => { st with has_value := true }))
      (stepPre p i sg).1 hPreSI hPreSA c
    rw [h1]
    exact setStatusAt_statusAt sg.1 _ _ (hSD _ hposD) hdepS hlenS c (hSD _ hc)
  have hPreD : inB (stepPre p i sg).1.data
      ((stepPre p i sg).1.data_points.getD i ⟨0, 0⟩) := by
    rw [hPre.2.2.1, hpos']
    exact hposD
  have hPre_dep : 0 < (stepPre p i sg).1.data.depth := by
    rw [hPre.2.2.1]; exact w5
  have hPre_ib : (stepPre p i sg).1.input_bytes = (stepPre p i sg).1.data.depth := by
    rw [hPre.2.2.2.2.1, hPre.2.2.1]; exact w6
  have hPre_dlen : ((stepPre p i sg).1.data_array.length : Int) =
      (stepPre p i sg).1.data.width * (stepPre p i sg).1.data.height *
        (stepPre p i sg).1.data.depth := by
    rw [hPre.2.2.2.2.2.2.2.2.2, hPre.2.2.1]
    exact w8
  have hCpix := commitPhase_pix (stepPre p i sg).1
    ((stepPre p i sg).1.data_points.getD i ⟨0, 0⟩) hPreD hPre_dep hPre_ib hPre_dlen
  have hPreSpos : inB (stepPre p i sg).1.status
      ((stepPre p i sg).1.data_points.getD i ⟨0, 0⟩) := by
    rw [hPreSI, hpos']
    exact hSD _ hposD
  have hPreSdep : (stepPre p i sg).1.status.depth = 1 := by
    rw [hPreSI]; exact hdepS
  have hPreSlen : ((stepPre p i sg).1.status_array.length : Int) =
      (stepPre p i sg).1.status.width * (stepPre p i sg).1.status.height := by
    have e : (setStatusAt sg.1 (sg.1.data_points.getD i ⟨0, 0⟩)
        (fun st => { st with has_value := true })).status_array.length
        = sg.1.status_array.length := List.length_set _ _ _
    rw [hPreSA, hPreSI, e]
    exact hlenS
  have hCst := commitPhase_statusAt (stepPre p i sg).1
    ((stepPre p i sg).1.data_points.getD i ⟨0, 0⟩) hPreSpos hPreSdep hPreSlen
  have hFinalStatus : ∀ c : Coord, inB sg.1.data c →
      statusAt (synthStep p i sg).1 c =
        if c = sg.1.data_points.getD i ⟨0, 0⟩
        then { statusAt sg.1 (sg.1.data_points.getD i ⟨0, 0⟩) with
                has_value := true, has_source := true,
                source := (stepPre p i sg).1.best_point }
        else statusAt sg.1 c := by
    intro c hc
    have h0 : statusAt (synthStep p i sg).1 c =
        statusAt (commitPhase (stepPre p i sg).1
          ((stepPre p i sg).1.data_points.getD i ⟨0, 0⟩)) c := rfl
    have hcS : inB (stepPre p i sg).1.status c := by
      rw [hPreSI]
      exact hSD _ hc
    rw [h0, hCst c hcS, hpos']
    by_cases hcp : c = sg.1.data_points.getD i ⟨0, 0⟩
    · rw [if_pos hcp, if_pos hcp]
      have h2 := hS1 (sg.1.data_points.getD i ⟨0, 0⟩) hposD
      rw [if_pos rfl] at h2
      rw [h2]
    · rw [if_neg hcp, if_neg hcp]
      have h2 := hS1 c hc
      rw [if_neg hcp] at h2
      exact h2
  refine ⟨?_, ?_, ?_, ?_⟩
  · refine StateWF_congr sg.1 (synthStep p i sg).1 (synthStep_frame p i sg).1
      (synthStep_frame p i sg).2.2.1 (synthStep_frame p i sg).2.2.2.2.1
      (synthStep_status_img p i sg) (synthStep_data_array_length p i sg)
      (synthStep_status_array_length p i sg) (synthStep_frame p i sg).2.2.2.1
      (synthStep_frame p i sg).2.1 ?_
      ⟨w1, w2, w3, w4, w5, w6, w7, w8, w9, w10, w11, w12⟩
    rw [synthStep_eq_commit, commitPhase_best_point]
    exact hPreBP
  · intro c hc hv
    have hcD : inB sg.1.data c := by
      rw [(synthStep_frame p i sg).2.2.1] at hc
      exact hc
    rw [hFinalStatus c hcD] at hv
    by_cases hcp : c = sg.1.data_points.getD i ⟨0, 0⟩
    · refine ⟨(stepPre p i sg).1.best_point, ?_, ?_⟩
      · rw [(synthStep_frame p i sg).1]
        exact hPreBP
      · intro k hk
        have hk1 : (k : Int) < sg.1.input_bytes := by
          rw [(synthStep_frame p i sg).2.2.2.2.1] at hk
          exact hk
        have hk2 : (k : Int) < (stepPre p i sg).1.data.depth := by
          rw [hPre.2.2.1, ← w6]
          exact hk1
        have hcPre : inB (stepPre p i sg).1.data c := by
          rw [hPre.2.2.1]
          exact hcD
        have h3 := hCpix c k hcPre hk2
        rw [if_pos (show c = (stepPre p i sg).1.data_points.getD i ⟨0, 0⟩ by
          rw [hpos']; exact hcp)] at h3
        rw [synthStep_eq_commit, commitPhase_data, commitPhase_corpus,
          commitPhase_corpus_array]
        exact h3
    · rw [if_neg hcp] at hv
      obtain ⟨q, hq, heq⟩ := hclos c hcD hv
      refine ⟨q, ?_, ?_⟩
      · rw [(synthStep_frame p i sg).1]
        exact hq
      · intro k hk
        have hk1 : (k : Int) < sg.1.input_bytes := by
          rw [(synthStep_frame p i sg).2.2.2.2.1] at hk
          exact hk
        have hk2 : (k : Int) < (stepPre p i sg).1.data.depth := by
          rw [hPre.2.2.1, ← w6]
          exact hk1
        have hcPre : inB (stepPre p i sg).1.data c := by
          rw [hPre.2.2.1]
          exact hcD
        have h3 := hCpix c k hcPre hk2
        rw [if_neg (show ¬ c = (stepPre p i sg).1.data_points.getD i ⟨0, 0⟩ by
          rw [hpos']; exact hcp)] at h3
        rw [synthStep_eq_commit, commitPhase_data, commitPhase_corpus,
          commitPhase_corpus_array, hPre.2.2.1, hPre.1, hPre.2.2.2.2.2.2.1]
        rw [hPre.2.2.1, hPre.2.2.2.2.2.2.2.2.2] at h3
        rw [h3]
        exact heq k hk1
  · intro c hc hv
    rw [hFinalStatus c hc]
    by_cases hcp : c = sg.1.data_points.getD i ⟨0, 0⟩
    · rw [if_pos hcp]
    · rw [if_neg hcp]
      exact hv
  · rw [hFinalStatus _ hposD, if_pos rfl]

lemma runIdx_clos (p : Parameters) :
    ∀ (l : List Nat) (sg : Resynth_state × Pcg), StateWF sg.1 → Clos sg.1 →
      StateWF (runIdx p l sg).1 ∧ Clos (runIdx p l sg).1 ∧
      (∀ c : Coord, inB sg.1.data c → (statusAt sg.1 c).has_value = true →
        (statusAt (runIdx p l sg).1 c).has_value = true) ∧
      (∀ j ∈ l,
        (statusAt (runIdx p l sg).1 (sg.1.data_points.getD j ⟨0, 0⟩)).has_value = true) := by
  intro l
  induction l with
  | nil =>
    intro sg hwf hclos
    exact ⟨hwf, hclos, fun c _ hv => hv, fun j hj => absurd hj (List.not_mem_nil j)⟩
  | cons j rest ih =>
    intro sg hwf hclos
    obtain ⟨h1, h2, h3, h4⟩ := synthStep_clos p j sg hwf hclos
    obtain ⟨g1, g2, g3, g4⟩ := ih (synthStep p j sg) h1 h2
    have hdata : (synthStep p j sg).1.data = sg.1.data := (synthStep_frame p j sg).2.2.1
    have hposD : ∀ j2 : Nat, inB sg.1.data (sg.1.data_points.getD j2 ⟨0, 0⟩) := by
      intro j2
      rcases getD_mem_or sg.1.data_points j2 ⟨0, 0⟩ with hm | hm
      · exact hwf.2.2.2.2.2.2.2.2.2.1 _ hm
      · rw [hm]; exact ⟨le_refl 0, hwf.2.2.1, le_refl 0, hwf.2.2.2.1⟩
    rw [runIdx]
    refine ⟨g1, g2, ?_, ?_⟩
    · intro c hc hv
      have hcD : inB (synthStep p j sg).1.data c := by
        rw [hdata]
        exact hc
      exact g3 c hcD (h3 c hc hv)
    · intro j2 hj2
      rcases List.mem_cons.mp hj2 with rfl | hj2r
      · have hcD : inB (synthStep p j2 sg).1.data (sg.1.data_points.getD j2 ⟨0, 0⟩) := by
          rw [(synthStep_frame p j2 sg).2.2.1]
          exact hposD j2
        exact g3 _ hcD h4
      · have h5 := g4 j2 hj2r
        rw [(synthStep_frame p j sg).2.2.2.1] at h5
        exact h5

lemma resynth__init_StateWF (p : Parameters) (s : Resynth_state) (g : Pcg)
    (hcw : 0 < s.corpus.width) (hchh : 0 < s.corpus.height)
    (hdw : 0 < s.data.width) (hdh : 0 < s.data.height) (hdd : 0 < s.data.depth)
    (hib : s.input_bytes = s.data.depth)
    (hdlen : ((s.data_array.length : Int)) = s.data.width * s.data.height * s.data.depth)
    (hbp : inB s.corpus s.best_point) :
    StateWF (resynth__init p (s, g)).1 ∧ Clos (resynth__init p (s, g)).1 ∧
    (resynth__init p (s, g)).1.data = s.data ∧
    (resynth__init p (s, g)).1.corpus = s.corpus ∧
    (resynth__init p (s, g)).1.corpus_array = s.corpus_array ∧
    (resynth__init p (s, g)).1.input_bytes = s.input_bytes ∧
    (∀ c : Coord, inB s.data c → c ∈ (resynth__init p (s, g)).1.data_points) := by
  have hCne : (rowMajor s.corpus.width s.corpus.height).length ≠ 0 := by
    rw [rowMajor_length]
    exact Nat.mul_ne_zero (by omega) (by omega)
  have hDne : (rowMajor s.data.width s.data.height).length ≠ 0 := by
    rw [rowMajor_length]
    exact Nat.mul_ne_zero (by omega) (by omega)
  have hSh := shuffleGo_perm ((rowMajor s.data.width s.data.height).length : Int)
    (((rowMajor s.data.width s.data.height).length : Int)).toNat 0
    (rowMajor s.data.width s.data.height, g)
  rw [resynth__init_eq_nonempty s p g hCne hDne]
  dsimp only
  refine ⟨⟨hcw, hchh, hdw, hdh, hdd, hib, rfl, hdlen, ?slen, ?dpts, ?cpts, hbp⟩,
    ?clos, rfl, rfl, rfl, rfl, ?cov⟩
  case slen =>
    show (((List.replicate (s.data.width * s.data.height).toNat statusZero).length : Int))
      = s.data.width * s.data.height
    rw [List.length_replicate]
    exact Int.toNat_of_nonneg (le_of_lt (mul_pos hdw hdh))
  case dpts =>
    intro c hc
    have hc2 : c ∈ (if p.magic ≠ 0 then
        polishLoop p.magic
          (shuffleGo ((rowMajor s.data.width s.data.height).length : Int)
            (((rowMajor s.data.width s.data.height).length : Int)).toNat 0
            (rowMajor s.data.width s.data.height, g)).1
          ((rowMajor s.data.width s.data.height).length : Int)
      else
        (shuffleGo ((rowMajor s.data.width s.data.height).length : Int)
          (((rowMajor s.data.width s.data.height).length : Int)).toNat 0
          (rowMajor s.data.width s.data.height, g)).1) := hc
    by_cases hm : p.magic ≠ 0
    · rw [if_pos hm] at hc2
      have h3 := hSh.mem_iff.mp ((polishLoop_mem _ _ _ _).mp hc2)
      exact (rowMajor_mem _ _ _).mp h3
    · rw [if_neg hm] at hc2
      exact (rowMajor_mem _ _ _).mp (hSh.mem_iff.mp hc2)
  case cpts =>
    intro c hc
    have hc2 : c ∈ rowMajor s.corpus.width s.corpus.height := hc
    exact (rowMajor_mem _ _ _).mp hc2
  case clos =>
    intro c hc hv
    have e : (List.replicate (s.data.width * s.data.height).toNat statusZero).getD
        ((imageIdx (⟨s.data.width, s.data.height, 1⟩ : Image) c).toNat) statusZero
        = statusZero := getD_replicate_self _ _ _
    have hv2 : statusZero.has_value = true := by
      rw [← e]
      exact hv
    exact absurd hv2 (by decide)
  case cov =>
    intro c hc
    have hc2 : 0 ≤ c.x ∧ c.x < s.data.width ∧ 0 ≤ c.y ∧ c.y < s.data.height := hc
    have hm0 : c ∈ rowMajor s.data.width s.data.height := (rowMajor_mem _ _ _).mpr hc2
    show c ∈ (if p.magic ≠ 0 then
        polishLoop p.magic
          (shuffleGo ((rowMajor s.data.width s.data.height).length : Int)
            (((rowMajor s.data.width s.data.height).length : Int)).toNat 0
            (rowMajor s.data.width s.data.height, g)).1
          ((rowMajor s.data.width s.data.height).length : Int)
      else
        (shuffleGo ((rowMajor s.data.width s.data.height).length : Int)
          (((rowMajor s.data.width s.data.height).length : Int)).toNat 0
          (rowMajor s.data.width s.data.height, g)).1)
    by_cases hm : p.magic ≠ 0
    · rw [if_pos hm]
      exact (polishLoop_mem _ _ _ _).mpr (hSh.mem_iff.mpr hm0)
    · rw [if_neg hm]
      exact hSh.mem_iff.mpr hm0

lemma mem_getD_index (l : List Coord) (c : Coord) (hc : c ∈ l) :
    ∃ j : Nat, j < l.length ∧ l.getD j ⟨0, 0⟩ = c := by
  obtain ⟨i, hi, hie⟩ := List.getElem_of_mem hc
  refine ⟨i, hi, ?_⟩
  rw [List.getD_eq_getElem?_getD, List.getElem?_eq_getElem hi]
  exact hie

/-- Claim C2: for every run on a state created from memory with positive
width, height and channel count, every pixel of the output buffer returned
by resynth_run is bit-equal on all channels to some pixel of the corpus
buffer — for every parameter record, including tries = 0 and magic = 0. -/
theorem claim_C2_output_closure (pixels : List Nat) (w h ch scale : Int) (p : Parameters)
    (hw : 0 < w) (hh : 0 < h) (hch : 0 < ch) :
    ∀ c : Coord,
      inB (resynth_state_create_from_memory pixels w h ch scale).data c →
      ∃ q : Coord,
        inB (resynth_state_create_from_memory pixels w h ch scale).corpus q ∧
        ∀ k : Nat, (k : Int) < ch →
          pixGet (resynth_run (resynth_state_create_from_memory pixels w h ch scale) p).1.pixels
              (resynth_state_create_from_memory pixels w h ch scale).data c k
            = pixGet (resynth_state_create_from_memory pixels w h ch scale).corpus_array
                (resynth_state_create_from_memory pixels w h ch scale).corpus q k := by
  intro c hc
  have hdw : 0 < (resynth_state_create_from_memory pixels w h ch scale).data.width := by
    show 0 < (if 0 < scale then scale * w else if scale < 0 then -scale else 256)
    by_cases h1 : 0 < scale
    · rw [if_pos h1]
      exact mul_pos h1 hw
    · rw [if_neg h1]
      by_cases h2 : scale < 0
      · rw [if_pos h2]
        omega
      · rw [if_neg h2]
        omega
  have hdh : 0 < (resynth_state_create_from_memory pixels w h ch scale).data.height := by
    show 0 < (if 0 < scale then scale * h else if scale < 0 then -scale else 256)
    by_cases h1 : 0 < scale
    · rw [if_pos h1]
      exact mul_pos h1 hh
    · rw [if_neg h1]
      by_cases h2 : scale < 0
      · rw [if_pos h2]
        omega
      · rw [if_neg h2]
        omega
  have hdd : 0 < (resynth_state_create_from_memory pixels w h ch scale).data.depth := hch
  have hib : (resynth_state_create_from_memory pixels w h ch scale).input_bytes =
      (resynth_state_create_from_memory pixels w h ch scale).data.depth := rfl
  have hdlen : (((resynth_state_create_from_memory pixels w h ch scale).data_array.length : Int)) =
      (resynth_state_create_from_memory pixels w h ch scale).data.width *
        (resynth_state_create_from_memory pixels w h ch scale).data.height *
        (resynth_state_create_from_memory pixels w h ch scale).data.depth := by
    show (((List.replicate
        ((resynth_state_create_from_memory pixels w h ch scale).data.width *
          (resynth_state_create_from_memory pixels w h ch scale).data.height *
          (resynth_state_create_from_memory pixels w h ch scale).data.depth).toNat 0).length : Int)) = _
    rw [List.length_replicate]
    exact Int.toNat_of_nonneg (le_of_lt (mul_pos (mul_pos hdw hdh) hdd))
  have hcw : 0 < (resynth_state_create_from_memory pixels w h ch scale).corpus.width := hw
  have hchh : 0 < (resynth_state_create_from_memory pixels w h ch scale).corpus.height := hh
  have hbp : inB (resynth_state_create_from_memory pixels w h ch scale).corpus
      (resynth_state_create_from_memory pixels w h ch scale).best_point :=
    ⟨le_refl 0, hw, le_refl 0, hh⟩
  obtain ⟨hwf0, hclos0, hIdata, hIcorpus, hIcarr, hIib, hcov⟩ :=
    resynth__init_StateWF p (resynth_state_create_from_memory pixels w h ch scale)
      (pcgSeed p.random_seed) hcw hchh hdw hdh hdd hib hdlen hbp
  obtain ⟨hwfF, hclosF, hmonoF, hcovF⟩ := runIdx_clos p
    ((List.range (resynth__init p (resynth_state_create_from_memory pixels w h ch scale,
      pcgSeed p.random_seed)).1.data_points.length).reverse)
    (resynth__init p (resynth_state_create_from_memory pixels w h ch scale,
      pcgSeed p.random_seed)) hwf0 hclos0
  have hF := runIdx_frame p
    ((List.range (resynth__init p (resynth_state_create_from_memory pixels w h ch scale,
      pcgSeed p.random_seed)).1.data_points.length).reverse)
    (resynth__init p (resynth_state_create_from_memory pixels w h ch scale,
      pcgSeed p.random_seed))
  have hcmem := hcov c hc
  obtain ⟨j, hjlt, hjc⟩ := mem_getD_index _ c hcmem
  have hj_in : j ∈ (List.range (resynth__init p
      (resynth_state_create_from_memory pixels w h ch scale,
        pcgSeed p.random_seed)).1.data_points.length).reverse := by
    rw [List.mem_reverse, List.mem_range]
    exact hjlt
  have hval := hcovF j hj_in
  rw [hjc] at hval
  have hcF : inB (runIdx p
      ((List.range (resynth__init p (resynth_state_create_from_memory pixels w h ch scale,
        pcgSeed p.random_seed)).1.data_points.length).reverse)
      (resynth__init p (resynth_state_create_from_memory pixels w h ch scale,
        pcgSeed p.random_seed))).1.data c := by
    rw [hF.2.2.1, hIdata]
    exact hc
  obtain ⟨q, hqF, heq⟩ := hclosF c hcF hval
  rw [hF.1, hIcorpus] at hqF
  refine ⟨q, hqF, ?_⟩
  intro k hk
  have hk2 : (k : Int) < (runIdx p
      ((List.range (resynth__init p (resynth_state_create_from_memory pixels w h ch scale,
        pcgSeed p.random_seed)).1.data_points.length).reverse)
      (resynth__init p (resynth_state_create_from_memory pixels w h ch scale,
        pcgSeed p.random_seed))).1.input_bytes := by
    rw [hF.2.2.2.2.1, hIib]
    exact hk
  have h5 := heq k hk2
  rw [hF.2.2.1, hIdata, hF.2.2.2.2.2.2.1, hIcarr, hF.1, hIcorpus] at h5
  exact h5

/-- Witness for C2 at a concrete input: a 1-by-1 three-channel corpus,
scale 1, default-style parameters. -/
theorem claim_C2_output_closure_witness :
    (0 : Int) < 1 ∧ (0 : Int) < 3 ∧
    (∀ c : Coord,
      inB (resynth_state_create_from_memory [5, 6, 7] 1 1 3 1).data c →
      ∃ q : Coord,
        inB (resynth_state_create_from_memory [5, 6, 7] 1 1 3 1).corpus q ∧
        ∀ k : Nat, (k : Int) < 3 →
          pixGet (resynth_run (resynth_state_create_from_memory [5, 6, 7] 1 1 3 1)
              (⟨false, false, 32 / 256, 29, 192, 192, 0⟩ : Parameters)).1.pixels
              (resynth_state_create_from_memory [5, 6, 7] 1 1 3 1).data c k
            = pixGet (resynth_state_create_from_memory [5, 6, 7] 1 1 3 1).corpus_array
                (resynth_state_create_from_memory [5, 6, 7] 1 1 3 1).corpus q k) :=
  ⟨by decide, by decide,
    claim_C2_output_closure [5, 6, 7] 1 1 3 1
      (⟨false, false, 32 / 256, 29, 192, 192, 0⟩ : Parameters)
      (by decide) (by decide) (by decide)⟩
